import Mathlib

/-!
Verification development for the trading-bot backend.

Shallow embedding, translated from the Python sources:
  * `backend/app/bot_state_machine.py`   — lifecycle state machine
  * `backend/app/trading_bot.py`         — orchestrator (trailing stop, start/stop,
                                           enter_position, close_position, squareoff)
  * `backend/app/dhan_api.py`            — order fill-confirmation poll loop
  * `backend/app/strategies/score_mds.py`— entry/exit decision rules
  * `backend/app/strategies/runner.py`   — confirmation-counter runner
  * `backend/app/indicators.py`          — SuperTrend / MACD indicator stacks
  * `backend/app/score_engine.py`        — multi-timeframe score engine
  * `backend/app/broker_reconciler.py`   — startup broker reconciliation

Python floats are modelled as exact rationals (`ℚ`); every piece of arithmetic
the embedded code performs is rational, except the score engine's standard
deviation, which we carry as the exact variance (stddev²) and compare against
squared thresholds — an exact transformation since both sides are nonnegative.
Wall-clock timestamps (log metadata only) are omitted.
-/

set_option maxRecDepth 16000

namespace TradingBotV7

/-! ### Lifecycle state machine — `bot_state_machine.py` -/

/-- The `BotPhase` enum. -/
inductive BotPhase where
  | IDLE
  | WARMING_UP
  | SCANNING
  | ENTERING
  | IN_POSITION
  | EXITING
  | COOLDOWN
  | ERROR
deriving DecidableEq, Repr

open BotPhase

/-- The `_ALLOWED` transition table (sets rendered as lists). -/
def allowedTargets : BotPhase → List BotPhase
  | IDLE        => [WARMING_UP, SCANNING]
  | WARMING_UP  => [SCANNING, IDLE, ERROR]
  | SCANNING    => [ENTERING, IDLE, ERROR]
  | ENTERING    => [IN_POSITION, SCANNING, IDLE, ERROR]
  | IN_POSITION => [EXITING, IDLE, ERROR]
  | EXITING     => [COOLDOWN, IN_POSITION, IDLE, ERROR]
  | COOLDOWN    => [SCANNING, IDLE, ERROR]
  | ERROR       => [IDLE]

/-- The mutable fields of `BotStateMachine` (`_entered_at`, a wall-clock
timestamp used only for display, is omitted). -/
structure BotStateMachine where
  phase : BotPhase
  previous : Option BotPhase
deriving DecidableEq, Repr

/-- `BotStateMachine.__init__`. -/
def BotStateMachine.init : BotStateMachine := ⟨IDLE, none⟩

/-- `BotStateMachine.transition`: returns the `True`/`False` result together
with the updated machine. On a blocked transition the machine is returned
unchanged (the source only logs a warning). -/
def BotStateMachine.transition (m : BotStateMachine) (newPhase : BotPhase) :
    Bool × BotStateMachine :=
  if newPhase ∈ allowedTargets m.phase then
    (true, { phase := newPhase, previous := some m.phase })
  else
    (false, m)

/-- `can_enter`: true only in SCANNING. -/
def BotStateMachine.can_enter (m : BotStateMachine) : Bool := m.phase = SCANNING

/-- `can_exit`: true only in IN_POSITION. -/
def BotStateMachine.can_exit (m : BotStateMachine) : Bool := m.phase = IN_POSITION

/-- `is_active`: true for every phase except IDLE/ERROR. -/
def BotStateMachine.is_active (m : BotStateMachine) : Bool :=
  !(m.phase = IDLE || m.phase = ERROR)

/-! ### Trailing-stop monitor — `TradingBot.check_trailing_sl` -/

/-- The configuration keys read by `check_trailing_sl`
(`trail_start_profit`, `trail_step`, `initial_stoploss`). -/
structure TrailCfg where
  trail_start_profit : ℚ
  trail_step : ℚ
  initial_stoploss : ℚ
deriving DecidableEq, Repr

/-- The bot attributes mutated by `check_trailing_sl`
(`self.trailing_sl`, `self.highest_profit`). -/
structure TrailSt where
  trailing_sl : Option ℚ
  highest_profit : ℚ
deriving DecidableEq, Repr

/-- `TradingBot.check_trailing_sl`, as a pure state transformer.
`hasPosition` models the `if not self.current_position: return` guard;
`entry_price` is `self.entry_price`; the float parses always succeed in ℚ. -/
def check_trailing_sl (cfg : TrailCfg) (hasPosition : Bool) (entry_price : ℚ)
    (st : TrailSt) (current_ltp : ℚ) : TrailSt :=
  if !hasPosition then st
  else if cfg.trail_start_profit ≤ 0 ∨ cfg.trail_step ≤ 0 then st
  else
    let profit_points := current_ltp - entry_price
    let highest := max st.highest_profit profit_points
    -- Set initial fixed SL on first call
    let sl0 : Option ℚ :=
      if 0 < cfg.initial_stoploss ∧ st.trailing_sl = none then
        some (entry_price - cfg.initial_stoploss)
      else st.trailing_sl
    -- Trailing activates once profit crosses trail_start
    if highest < cfg.trail_start_profit then
      { trailing_sl := sl0, highest_profit := highest }
    else
      let trail_levels : ℤ :=
        ⌊(highest - cfg.trail_start_profit) / cfg.trail_step⌋
      let locked_profit : ℚ :=
        max 0 ((cfg.trail_start_profit - cfg.trail_step) +
          (trail_levels : ℚ) * cfg.trail_step)
      let new_sl := entry_price + locked_profit
      -- Only ever move SL up
      match sl0 with
      | none => { trailing_sl := some new_sl, highest_profit := highest }
      | some old =>
          if old < new_sl then { trailing_sl := some new_sl, highest_profit := highest }
          else { trailing_sl := sl0, highest_profit := highest }

/-- Fold `check_trailing_sl` over a sequence of option prices (the ≈1s monitor
feeding the latest LTP on every tick). -/
def trailRun (cfg : TrailCfg) (entry_price : ℚ) (st : TrailSt) (ltps : List ℚ) : TrailSt :=
  ltps.foldl (fun s ltp => check_trailing_sl cfg true entry_price s ltp) st

/-- Initial trailing state right after entry (`self.trailing_sl = None`,
`self.highest_profit = 0`). -/
def trailInit : TrailSt := ⟨none, 0⟩

/-- The trailing-stop values observed after each call of the monitor. -/
def trailTrace (cfg : TrailCfg) (entry_price : ℚ) (ltps : List ℚ) : List (Option ℚ) :=
  (ltps.foldl
    (fun acc ltp =>
      let s := check_trailing_sl cfg true entry_price acc.1 ltp
      (s, acc.2 ++ [s.trailing_sl]))
    ((trailInit, []) : TrailSt × List (Option ℚ))).2

/-! ### Order fill confirmation — `DhanAPI.verify_order_filled` -/

/-- One poll of the broker order list: either the order is not visible yet
(`not in order list yet`), or a poll error was swallowed (`except` branch),
or the order record was seen with its (already upper-cased) status, filled
quantity and average price. -/
inductive PollObs where
  | notVisible
  | pollError
  | seen (status : String) (filledQty : ℤ) (averagePrice : ℚ)
deriving DecidableEq, Repr

/-- The dict returned by `verify_order_filled` (minus `order_id`/`message`,
which are pass-through strings). -/
structure FillResult where
  filled : Bool
  status : String
  filled_qty : ℤ
  average_price : ℚ
deriving DecidableEq, Repr

/-- `FILLED_STATUSES`. -/
def FILLED_STATUSES : List String := ["TRADED", "COMPLETE", "COMPLETED", "FILLED"]

/-- `PARTIAL_STATUSES`. -/
def PARTIAL_STATUSES : List String := ["PART_TRADED", "PARTIALLY_TRADED", "PARTIAL"]

/-- `OPEN_STATUSES`. -/
def OPEN_STATUSES : List String :=
  ["TRANSIT", "PENDING", "OPEN", "AFTER_MARKET_ORDER_REQ_RECEIVED", "AMO_REQ_RECEIVED"]

/-- `REJECTED_STATUSES`. -/
def REJECTED_STATUSES : List String := ["REJECTED"]

/-- `CANCEL_STATUSES`. -/
def CANCEL_STATUSES : List String := ["CANCELLED", "EXPIRED", "CANCELPENDING"]

/-- The TIMEOUT result (`elapsed > timeout_seconds` branch). -/
def timeoutResult : FillResult :=
  { filled := false, status := "TIMEOUT", filled_qty := 0, average_price := 0 }

/-- `DhanAPI.verify_order_filled`. The wall-clock timeout is modelled by
`fuel`: every loop iteration sleeps 0.5s between polls, so a 30s timeout
bounds the loop to finitely many iterations; `fuel` is that remaining
iteration budget and exhausting it returns the TIMEOUT result. When the
observation stream runs dry the broker keeps answering "not visible", which
the loop treats exactly like a not-yet-listed order (sleep and retry). -/
def verify_order_filled (expected_qty : ℤ) : Nat → List PollObs → FillResult
  | 0, _ => timeoutResult
  | fuel + 1, obs =>
    match obs with
    | [] => verify_order_filled expected_qty fuel []
    | o :: rest =>
      match o with
      | .notVisible => verify_order_filled expected_qty fuel rest
      | .pollError => verify_order_filled expected_qty fuel rest
      | .seen raw_status filled_qty average_price =>
        if raw_status ∈ FILLED_STATUSES then
          { filled := true, status := "TRADED",
            filled_qty := filled_qty, average_price := average_price }
        else if raw_status ∈ PARTIAL_STATUSES then
          if expected_qty ≤ filled_qty then
            { filled := true, status := "PART_TRADED",
              filled_qty := filled_qty, average_price := average_price }
          else verify_order_filled expected_qty fuel rest
        else if raw_status ∈ OPEN_STATUSES then
          verify_order_filled expected_qty fuel rest
        else if raw_status ∈ REJECTED_STATUSES then
          { filled := false, status := "REJECTED", filled_qty := 0, average_price := 0 }
        else if raw_status ∈ CANCEL_STATUSES then
          { filled := false, status := raw_status,
            filled_qty := filled_qty, average_price := average_price }
        else
          -- Unknown status — log and keep polling until timeout
          verify_order_filled expected_qty fuel rest

/-! ### Strategy rules — `strategies/score_mds.py` -/

/-- `ExitDecision`. -/
structure ExitDecision where
  should_exit : Bool
  reason : String := ""
deriving DecidableEq, Repr

/-- `EntryDecision`. -/
structure EntryDecision where
  should_enter : Bool
  option_type : String := ""
  reason : String := ""
deriving DecidableEq, Repr

/-- `decide_exit_mds`. `legacy` is `config['use_legacy_thresholds']`. -/
def decide_exit_mds (legacy : Bool) (position_type : String)
    (score slope slow_mom : ℚ) : ExitDecision :=
  let neutral := |score| ≤ 6
  if position_type = "CE" then
    if legacy then
      if score ≤ -10 then
        if slow_mom ≤ -1 then ⟨true, "MDS Reversal (slow confirm)"⟩ else ⟨false, ""⟩
      else if neutral then
        if |slow_mom| ≤ 1 ∧ slope ≤ 0 then ⟨true, "MDS Neutral (slow confirm)"⟩
        else ⟨false, ""⟩
      else if slope ≤ -2 ∧ score < 12 then
        if slow_mom ≤ 0 then ⟨true, "MDS Momentum Loss (slow confirm)"⟩ else ⟨false, ""⟩
      else ⟨false, ""⟩
    else
      if score ≤ -12 then
        if slow_mom ≤ -(3/2) then ⟨true, "MDS Reversal (slow confirm)"⟩ else ⟨false, ""⟩
      else if neutral then
        if |slow_mom| ≤ 1/2 ∧ slope ≤ 0 then ⟨true, "MDS Neutral (slow confirm)"⟩
        else ⟨false, ""⟩
      else if slope ≤ -(5/2) ∧ score < 12 then
        if slow_mom ≤ -(1/2) then ⟨true, "MDS Momentum Loss (slow confirm)"⟩
        else ⟨false, ""⟩
      else ⟨false, ""⟩
  else if position_type = "PE" then
    if legacy then
      if 10 ≤ score then
        if 1 ≤ slow_mom then ⟨true, "MDS Reversal (slow confirm)"⟩ else ⟨false, ""⟩
      else if neutral then
        if |slow_mom| ≤ 1 ∧ 0 ≤ slope then ⟨true, "MDS Neutral (slow confirm)"⟩
        else ⟨false, ""⟩
      else if 2 ≤ slope ∧ -12 < score then
        if 0 ≤ slow_mom then ⟨true, "MDS Momentum Loss (slow confirm)"⟩ else ⟨false, ""⟩
      else ⟨false, ""⟩
    else
      if 12 ≤ score then
        if 3/2 ≤ slow_mom then ⟨true, "MDS Reversal (slow confirm)"⟩ else ⟨false, ""⟩
      else if neutral then
        if |slow_mom| ≤ 1/2 ∧ 0 ≤ slope then ⟨true, "MDS Neutral (slow confirm)"⟩
        else ⟨false, ""⟩
      else if 5/2 ≤ slope ∧ -12 < score then
        if 1/2 ≤ slow_mom then ⟨true, "MDS Momentum Loss (slow confirm)"⟩
        else ⟨false, ""⟩
      else ⟨false, ""⟩
  else ⟨false, ""⟩

/-- `decide_entry_mds` (entry floors hardcoded at 12.0 / 1.5 in the source). -/
def decide_entry_mds (ready is_choppy : Bool) (direction : String)
    (score slope : ℚ) (confirm_count confirm_needed : ℤ) : EntryDecision :=
  if !ready then ⟨false, "", "mds_not_ready"⟩
  else if is_choppy then ⟨false, "", "mds_choppy"⟩
  else if direction = "NONE" then ⟨false, "", "neutral_band"⟩
  else if |score| < 12 then ⟨false, "", "score_too_low"⟩
  else if |slope| < 3/2 then ⟨false, "", "slope_too_low"⟩
  else if confirm_count < confirm_needed then ⟨false, "", "arming"⟩
  else ⟨true, if direction = "CE" then "CE" else "PE", ""⟩

/-! ### Strategy runner — `strategies/runner.py` -/

/-- `StrategyEntryDecision`. -/
structure StrategyEntryDecision where
  should_enter : Bool
  option_type : String := ""
  reason : String := ""
  confirm_count : ℤ := 0
  confirm_needed : ℤ := 0
deriving DecidableEq, Repr

/-- The mutable state of `ScoreMdsRunner` (`_last_direction`, `_confirm_count`,
`_recent_scores` — a deque of maxlen 5). -/
structure RunnerState where
  last_direction : Option String
  confirm_count : ℤ
  recent_scores : List ℚ
deriving DecidableEq, Repr

/-- `ScoreMdsRunner.__init__` / `reset`. -/
def RunnerState.init : RunnerState := ⟨none, 0, []⟩

/-- Keep the last `n` elements of a list (deque `maxlen` semantics / Python
`xs[-n:]`). -/
def keepLast (n : Nat) (xs : List α) : List α := xs.drop (xs.length - n)

/-- Last-three strictly-rising test on the recent-score deque
(`recent[-3], recent[-2], recent[-1]` with `c > b and b > a`). -/
def risingOk (recent : List ℚ) : Bool :=
  decide (3 ≤ recent.length) &&
    match keepLast 3 recent with
    | [a, b, c] => decide (b < c ∧ a < b)
    | _ => false

/-- Last-three strictly-falling test. -/
def fallingOk (recent : List ℚ) : Bool :=
  decide (3 ≤ recent.length) &&
    match keepLast 3 recent with
    | [a, b, c] => decide (c < b ∧ b < a)
    | _ => false

/-- `ScoreMdsRunner.decide_entry`. `legacy` is `config['use_legacy_thresholds']`.
Returns the updated runner state together with the decision. Python's
`int(confirm_needed or 0) or 1` is `if confirm_needed = 0 then 1 else
confirm_needed`. -/
def runner_decide_entry (legacy : Bool) (st : RunnerState)
    (ready is_choppy : Bool) (direction : String) (score slope : ℚ)
    (confirm_needed : ℤ) : RunnerState × StrategyEntryDecision :=
  let st := { st with recent_scores := keepLast 5 (st.recent_scores ++ [score]) }
  if !ready then (st, ⟨false, "", "mds_not_ready", 0, 0⟩)
  else if is_choppy then (st, ⟨false, "", "mds_choppy", 0, 0⟩)
  else if direction = "NONE" then
    ({ st with last_direction := some direction, confirm_count := 0 },
     ⟨false, "", "neutral_band", 0, 0⟩)
  else
    let score_min : ℚ := if legacy then 10 else 12
    let slope_min : ℚ := if legacy then 1 else 3/2
    if |score| < score_min then
      ({ st with last_direction := some direction, confirm_count := 0 },
       ⟨false, "", "score_too_low", 0, 0⟩)
    else if |slope| < slope_min then
      ({ st with last_direction := some direction, confirm_count := 0 },
       ⟨false, "", "slope_too_low", 0, 0⟩)
    else
      let rising := risingOk st.recent_scores
      let falling := fallingOk st.recent_scores
      if rising ∧ direction = "CE" then
        let cc : ℤ := if confirm_needed = 0 then 1 else confirm_needed
        ({ st with last_direction := some direction, confirm_count := cc },
         ⟨true, "CE", "rising_mds_immediate", cc, confirm_needed⟩)
      else if falling ∧ direction = "PE" then
        let cc : ℤ := if confirm_needed = 0 then 1 else confirm_needed
        ({ st with last_direction := some direction, confirm_count := cc },
         ⟨true, "PE", "falling_mds_immediate", cc, confirm_needed⟩)
      else
        let st :=
          if rising then
            if st.last_direction = some direction then
              { st with confirm_count := st.confirm_count + 1 }
            else
              { st with last_direction := some direction, confirm_count := 1 }
          else
            { st with last_direction := some direction, confirm_count := 0 }
        let d := decide_entry_mds ready is_choppy direction score slope
          st.confirm_count confirm_needed
        (st, ⟨d.should_enter, d.option_type, d.reason, st.confirm_count, confirm_needed⟩)

/-! ### Indicators — `indicators.py` (`SuperTrend`, `MACD`) -/

/-- A bar `{high, low, close}` (`score_engine.Candle`). -/
structure Candle where
  high : ℚ
  low : ℚ
  close : ℚ
deriving DecidableEq, Repr

/-- One entry of `SuperTrend.supertrend_values`. -/
structure STEntry where
  upper : ℚ
  lower : ℚ
  value : ℚ
  direction : ℤ
deriving DecidableEq, Repr

/-- The state of the `SuperTrend` indicator. -/
structure SuperTrend where
  period : Nat
  multiplier : ℚ
  candles : List Candle
  atr_values : List ℚ
  supertrend_values : List STEntry
  direction : ℤ
deriving DecidableEq, Repr

/-- `SuperTrend.__init__` / `reset`. -/
def SuperTrend.init (period : Nat) (multiplier : ℚ) : SuperTrend :=
  ⟨period, multiplier, [], [], [], 1⟩

/-- True-range sequence of a candle window given the close preceding the
window (the `tr_val` loop of the initial-ATR branch: the first candle of the
whole series uses `high - low`). -/
def trSeq : Option ℚ → List Candle → List ℚ
  | _, [] => []
  | pc, c :: rest =>
    (match pc with
     | none => c.high - c.low
     | some p => max (c.high - c.low) (max |c.high - p| |c.low - p|)) ::
      trSeq (some c.close) rest

/-- `SuperTrend.add_candle`. Returns the updated state and
`(supertrend_value, signal)` — `none` while fewer than `period` candles have
been seen (the Python `return None, None`). Division by a zero `period` never
occurs in use (the engine is constructed with `period ≥ 1`). -/
def SuperTrend.add_candle (st : SuperTrend) (high low close : ℚ) :
    SuperTrend × Option (ℚ × String) :=
  let candles := st.candles ++ [Candle.mk high low close]
  if candles.length < st.period then
    ({ st with candles := candles }, none)
  else
    -- penultimate close (candles[-2]) exists iff more than one candle
    let pen : Option ℚ :=
      if 1 < candles.length then
        (candles.get? (candles.length - 2)).map Candle.close
      else none
    let tr : ℚ :=
      max (high - low)
        (max (match pen with | some p => |high - p| | none => 0)
             (match pen with | some p => |low - p| | none => 0))
    let atr : ℚ :=
      if st.atr_values = [] then
        -- initial ATR: simple average of TR over the last `period` candles
        let start := candles.length - st.period
        let window := candles.drop start
        let pc := (candles.take start).getLast?.map Candle.close
        let trs := trSeq pc window
        if trs = [] then 0 else trs.sum / trs.length
      else ((st.atr_values.getLast?.getD 0) * ((st.period : ℚ) - 1) + tr) / st.period
    let atr_values := st.atr_values ++ [atr]
    let hl2 := (high + low) / 2
    let basic_upper := hl2 + st.multiplier * atr
    let basic_lower := hl2 - st.multiplier * atr
    let prevE := st.supertrend_values.getLast?
    let final_lower :=
      match prevE with
      | none => basic_lower
      | some prev =>
          let prev_close := pen.getD 0
          if prev.lower < basic_lower ∨ prev_close < prev.lower then basic_lower
          else prev.lower
    let final_upper :=
      match prevE with
      | none => basic_upper
      | some prev =>
          let prev_close := pen.getD 0
          if basic_upper < prev.upper ∨ prev.upper < prev_close then basic_upper
          else prev.upper
    let dir : ℤ :=
      match prevE with
      | none => if final_upper < close then 1 else -1
      | some prev =>
          if prev.direction = 1 then (if close < final_lower then -1 else 1)
          else (if final_upper < close then 1 else -1)
    let value := if dir = 1 then final_lower else final_upper
    let entries := st.supertrend_values ++
      [STEntry.mk final_upper final_lower value dir]
    -- keep only the last 100 values
    let (candles, atr_values, entries) :=
      if 100 < candles.length then
        (keepLast 100 candles, keepLast 100 atr_values, keepLast 100 entries)
      else (candles, atr_values, entries)
    ({ st with
        candles := candles, atr_values := atr_values,
        supertrend_values := entries, direction := dir },
     some (value, if dir = 1 then "GREEN" else "RED"))

/-- The state of the `MACD` indicator. -/
structure MACD where
  fast : Nat
  slow : Nat
  signal_period : Nat
  closes : List ℚ
  macd_values : List ℚ
  last_macd : Option ℚ
  last_signal_line : Option ℚ
  last_histogram : Option ℚ
  last_cross : Option String
  fast_ema : Option ℚ
  slow_ema : Option ℚ
  signal_ema : Option ℚ
  fast_seed : List ℚ
  slow_seed : List ℚ
  signal_seed : List ℚ
  last_relation : Option ℤ
deriving DecidableEq, Repr

/-- `MACD.__init__` / `reset`. -/
def MACD.init (fast slow signal : Nat) : MACD :=
  ⟨fast, slow, signal, [], [], none, none, none, none, none, none, none,
   [], [], [], none⟩

/-- `MACD._update_ema`: incremental EMA with SMA seeding. Returns the new EMA
value (or `none` while seeding) together with the (possibly grown) seed
list. -/
def update_ema (current : Option ℚ) (value : ℚ) (period : Nat)
    (seed : List ℚ) : Option ℚ × List ℚ :=
  if period = 0 then (none, seed)
  else
    match current with
    | none =>
        let seed := seed ++ [value]
        if seed.length < period then (none, seed)
        else if seed.length = period then (some (seed.sum / period), seed)
        else (some ((keepLast period seed).sum / period), seed)
    | some ema =>
        let alpha : ℚ := 2 / ((period : ℚ) + 1)
        (some (value * alpha + ema * (1 - alpha)), seed)

/-- `MACD.add_candle`. Returns the updated state together with the
`(macd, cross)` pair the method returns. -/
def MACD.add_candle (m : MACD) (_high _low close : ℚ) :
    MACD × Option ℚ × Option String :=
  let closes := m.closes ++ [close]
  let fastU := update_ema m.fast_ema close m.fast m.fast_seed
  let slowU := update_ema m.slow_ema close m.slow m.slow_seed
  match fastU.1, slowU.1 with
  | some f, some s =>
      let macd := f - s
      let mvals := m.macd_values ++ [macd]
      let sigU := update_ema m.signal_ema macd m.signal_period m.signal_seed
      (match sigU.1 with
       | some sv =>
          let histogram := macd - sv
          let relation : ℤ := if sv ≤ macd then 1 else -1
          let cross : Option String :=
            match m.last_relation with
            | some lr =>
                if relation ≠ lr then some (if relation = 1 then "GREEN" else "RED")
                else none
            | none => none
          ({ m with
              closes := closes, macd_values := mvals,
              fast_ema := some f, slow_ema := some s, signal_ema := some sv,
              fast_seed := fastU.2, slow_seed := slowU.2, signal_seed := sigU.2,
              last_macd := some macd, last_signal_line := some sv,
              last_histogram := some histogram, last_cross := cross,
              last_relation := some relation }, some macd, cross)
       | none =>
          ({ m with
              closes := closes, macd_values := mvals,
              fast_ema := some f, slow_ema := some s, signal_ema := none,
              fast_seed := fastU.2, slow_seed := slowU.2, signal_seed := sigU.2,
              last_macd := some macd, last_signal_line := none,
              last_histogram := none, last_cross := none }, some macd, none))
  | _, _ =>
      ({ m with
          closes := closes,
          fast_ema := fastU.1, slow_ema := slowU.1,
          fast_seed := fastU.2, slow_seed := slowU.2,
          last_macd := none, last_signal_line := none,
          last_histogram := none, last_cross := none }, none, none)

/-! ### Score engine — `score_engine.py` -/

/-- `TFScore` (one timeframe's score breakdown, immutable). -/
structure TFScore where
  timeframe_seconds : Nat
  macd_score : ℚ
  hist_score : ℚ
  st_score : ℚ
  bonus_score : ℚ
  raw_score : ℚ
  weighted_score : ℚ
  st_direction : ℤ
deriving DecidableEq, Repr

/-- `TFIndicators` (per-timeframe indicator state; `st_flip_history` is a
deque of maxlen 6 holding 1 for a flip, 0 otherwise). -/
structure TFIndicators where
  timeframe_seconds : Nat
  supertrend : SuperTrend
  macd : MACD
  prev_macd : Option ℚ
  prev_hist : Option ℚ
  prev_st_dir : Option ℤ
  st_flip_history : List ℤ
deriving DecidableEq, Repr

/-- `_NORM_EPS`. -/
def NORM_EPS : ℚ := 1 / 10 ^ 12

/-- `_MACD_FLAT_DIFF_NORM`. -/
def MACD_FLAT_DIFF_NORM : ℚ := 2 / 10 ^ 6

/-- `_HIST_NEAR_ZERO_NORM`. -/
def HIST_NEAR_ZERO_NORM : ℚ := 2 / 10 ^ 6

/-- `_HIST_EXPAND_THRESH_NORM`. -/
def HIST_EXPAND_THRESH_NORM : ℚ := 4 / 10 ^ 6

/-- The aggregation dict `self._agg_partial[next_tf]` when non-empty. -/
structure AggState where
  count : Nat
  high : ℚ
  low : ℚ
  close : ℚ
deriving DecidableEq, Repr

/-- `ScoreEngine` state. Only the two tracked timeframes exist
(`self.timeframes = (base, next)`), so `_tfs` and `_last_scores` are stored
as one field per timeframe. `self._agg_partial[next_tf]` is `none` when the
source holds the empty dict. -/
structure ScoreEngine where
  base_tf : Nat
  next_tf : Nat
  bonus_macd_triple : ℚ
  bonus_macd_momentum : ℚ
  bonus_macd_cross : ℚ
  max_tf_raw : ℚ
  neutral_band : ℚ
  chop_window : Nat
  tfs_base : TFIndicators
  tfs_next : TFIndicators
  agg_state : Option AggState
  score_history : List ℚ
  slope_history : List ℚ
  score_ewma : Option ℚ
  last_score_base : TFScore
  last_score_next : TFScore
deriving DecidableEq, Repr

/-- `self.tf_weights.get(tf, 1.0)`: base weight 1.0, next-timeframe weight
3.0, default 1.0. -/
def tf_weight (e : ScoreEngine) (tf : Nat) : ℚ :=
  if tf = e.base_tf then 1 else if tf = e.next_tf then 3 else 1

/-- `_neutral_tf_score`. -/
def neutral_tf_score (tf : Nat) : TFScore := ⟨tf, 0, 0, 0, 0, 0, 0, 0⟩

/-- The timeframe chain `_TF_CHAIN = (5, 15, 30, 60, 300, 900)`; `_next_tf`
raises for 900 or an unknown timeframe (modelled as 0, never used: the
engine is only constructed with a valid base timeframe). -/
def next_tf_in_chain (tf : Nat) : Nat :=
  if tf = 5 then 15 else if tf = 15 then 30 else if tf = 30 then 60
  else if tf = 60 then 300 else if tf = 300 then 900 else 0

/-- `TFIndicators` as built in `ScoreEngine.__init__`. -/
def TFIndicators.init (tf st_period : Nat) (st_multiplier : ℚ)
    (macd_fast macd_slow macd_signal : Nat) : TFIndicators :=
  ⟨tf, SuperTrend.init st_period st_multiplier,
   MACD.init macd_fast macd_slow macd_signal, none, none, none, []⟩

/-- `ScoreEngine.__init__`. `chop_window = max(8, round(120 / base_tf))` and
`neutral_band = max(4.0, round(0.30 * max_possible, 2))`; Python's banker's
rounding differs from `round` here only on exact ties, which cannot arise
for the chain timeframes / representable bonus weights used. -/
def ScoreEngine.init (st_period : Nat) (st_multiplier : ℚ)
    (macd_fast macd_slow macd_signal : Nat) (base_timeframe_seconds : Nat)
    (bonus_macd_triple bonus_macd_momentum bonus_macd_cross : ℚ) : ScoreEngine :=
  let base_tf := base_timeframe_seconds
  let nxt := next_tf_in_chain base_tf
  let max_tf_raw : ℚ :=
    6 + max 0 bonus_macd_triple + max 0 bonus_macd_momentum + max 0 bonus_macd_cross
  -- sum of the two timeframe weights is 1.0 + 3.0
  let max_possible := max_tf_raw * 4
  let neutral_band : ℚ := max 4 ((round ((3 / 10) * max_possible * 100) : ℤ) / 100)
  let chop_window : Nat := max 8 (round ((120 : ℚ) / (max 1 base_tf : ℚ))).toNat
  { base_tf := base_tf
    next_tf := nxt
    bonus_macd_triple := bonus_macd_triple
    bonus_macd_momentum := bonus_macd_momentum
    bonus_macd_cross := bonus_macd_cross
    max_tf_raw := max_tf_raw
    neutral_band := neutral_band
    chop_window := chop_window
    tfs_base := TFIndicators.init base_tf st_period st_multiplier
      macd_fast macd_slow macd_signal
    tfs_next := TFIndicators.init nxt st_period st_multiplier
      macd_fast macd_slow macd_signal
    agg_state := none
    score_history := []
    slope_history := []
    score_ewma := none
    last_score_base := neutral_tf_score base_tf
    last_score_next := neutral_tf_score nxt }

/-- `ScoreEngine._compute_tf_score_from_state`: scores one candle for one
timeframe, returning the updated indicator state together with the
`TFScore`. `_update_tf` persists the returned state; the peek path discards
it (the Python deepcopy). -/
def compute_tf_score_from_state (e : ScoreEngine) (state : TFIndicators)
    (tf : Nat) (candle : Candle) : TFIndicators × TFScore :=
  let close := candle.close
  let stU := state.supertrend.add_candle candle.high candle.low close
  let macdU := (state.macd.add_candle candle.high candle.low close).1
  -- SuperTrend score
  let st_dir : ℤ :=
    match stU.2 with
    | some (_, sig) => if sig = "GREEN" then 1 else if sig = "RED" then -1 else 0
    | none => 0
  let flipped : Bool :=
    match state.prev_st_dir with
    | some p => decide (st_dir ≠ 0 ∧ st_dir ≠ p)
    | none => false
  let st_flip_history := keepLast 6 (state.st_flip_history ++ [if flipped then 1 else 0])
  let flip_count := st_flip_history.sum
  let st_score : ℚ :=
    if st_dir = 0 then 0
    else if 2 ≤ flip_count then 0
    else if flipped then (st_dir : ℚ)
    else 2 * (st_dir : ℚ)
  let prev_st_dir := if st_dir ≠ 0 then some st_dir else state.prev_st_dir
  -- MACD line score
  let denom := max |close| NORM_EPS
  let macdLineRes : ℚ × Option ℚ :=
    match macdU.last_macd with
    | none => (0, state.prev_macd)
    | some mv =>
        let diff : ℚ := match state.prev_macd with | none => 0 | some p => mv - p
        let diff_norm := diff / denom
        let sc : ℚ :=
          if |diff_norm| ≤ MACD_FLAT_DIFF_NORM then 0
          else if 0 < mv ∧ MACD_FLAT_DIFF_NORM < diff_norm then 2
          else if 0 < mv ∧ diff_norm < -MACD_FLAT_DIFF_NORM then 1
          else if mv < 0 ∧ diff_norm < -MACD_FLAT_DIFF_NORM then -2
          else if mv < 0 ∧ MACD_FLAT_DIFF_NORM < diff_norm then -1
          else 0
        (sc, some mv)
  let macd_score := macdLineRes.1
  let prev_macd := macdLineRes.2
  -- Histogram score
  let histRes : ℚ × Option ℚ :=
    match macdU.last_histogram with
    | none => (0, state.prev_hist)
    | some hv =>
        let diffh : ℚ := match state.prev_hist with | none => 0 | some p => hv - p
        let hist_norm := hv / denom
        let diff_norm := diffh / denom
        let sc : ℚ :=
          if |hist_norm| ≤ HIST_NEAR_ZERO_NORM then 0
          else if 0 < hv ∧ HIST_EXPAND_THRESH_NORM < diff_norm then 2
          else if 0 < hv ∧ diff_norm < -HIST_EXPAND_THRESH_NORM then 1
          else if hv < 0 ∧ diff_norm < -HIST_EXPAND_THRESH_NORM then -2
          else if hv < 0 ∧ HIST_EXPAND_THRESH_NORM < diff_norm then -1
          else 0
        (sc, some hv)
  let hist_score := histRes.1
  let prev_hist := histRes.2
  -- Bonus 1: all three MACD values aligned in sign
  let bonus1 : ℚ :=
    match macdU.last_macd, macdU.last_signal_line, macdU.last_histogram with
    | some mv, some sv, some hv =>
        let macd_norm := mv / denom
        let sig_norm := sv / denom
        let hist_norm := hv / denom
        if MACD_FLAT_DIFF_NORM < |macd_norm| ∧ MACD_FLAT_DIFF_NORM < |sig_norm| ∧
            HIST_NEAR_ZERO_NORM < |hist_norm| then
          if 0 < mv ∧ 0 < sv ∧ 0 < hv then e.bonus_macd_triple
          else if mv < 0 ∧ sv < 0 ∧ hv < 0 then -e.bonus_macd_triple
          else 0
        else 0
    | _, _, _ => 0
  -- Bonus 2: MACD + HIST both at maximum same-sign score
  let bonus2 : ℚ :=
    if 2 ≤ macd_score ∧ 2 ≤ hist_score then e.bonus_macd_momentum
    else if macd_score ≤ -2 ∧ hist_score ≤ -2 then -e.bonus_macd_momentum
    else 0
  -- Bonus 3: MACD/signal-line crossover
  let bonus3 : ℚ :=
    match macdU.last_cross with
    | some "GREEN" => e.bonus_macd_cross
    | some "RED" => -e.bonus_macd_cross
    | _ => 0
  let bonus := bonus1 + bonus2 + bonus3
  let raw := macd_score + hist_score + st_score + bonus
  let weight := tf_weight e tf
  (⟨state.timeframe_seconds, stU.1, macdU, prev_macd, prev_hist, prev_st_dir,
    st_flip_history⟩,
   ⟨tf, macd_score, hist_score, st_score, bonus, raw, raw * weight, st_dir⟩)

/-- `ScoreEngine._aggregate` for the higher timeframe: accumulates the running
high/low/close, emits the completed higher-timeframe candle (and clears the
dict) once `multiple` base candles have been folded in. -/
def aggregateNext (e : ScoreEngine) (candle : Candle) :
    ScoreEngine × Option Candle :=
  let multiple := e.next_tf / e.base_tf
  let s0 : AggState :=
    match e.agg_state with
    | none => ⟨0, candle.high, candle.low, candle.close⟩
    | some s => s
  let s1 : AggState :=
    ⟨s0.count + 1, max s0.high candle.high, min s0.low candle.low, candle.close⟩
  if multiple ≤ s1.count then
    ({ e with agg_state := none }, some ⟨s1.high, s1.low, s1.close⟩)
  else
    ({ e with agg_state := some s1 }, none)

/-- Population variance of a sample list. The source's `_stddev` is the
square root of this; every comparison the engine makes against a stddev is
against a nonnegative threshold, so we compare variances against squared
thresholds — an exact translation. -/
def varianceOf (xs : List ℚ) : ℚ :=
  if xs = [] then 0
  else
    let m := xs.sum / (xs.length : ℚ)
    (xs.map (fun x => (x - m) ^ 2)).sum / (xs.length : ℚ)

/-- `ScoreEngine._detect_chop`, over the current score history. Comparisons
involving the stddev are performed on the variance against squared
thresholds (equivalent: both sides nonnegative). -/
def detect_chop (e : ScoreEngine) (history : List ℚ) : Bool :=
  let window := keepLast e.chop_window history
  if window.length < 8 then false
  else
    let flips :=
      (window.foldl
        (fun (acc : ℤ × ℕ) s =>
          let sign : ℤ := if 0 < s then 1 else if s < 0 then -1 else 0
          let fl := if acc.1 ≠ 0 ∧ sign ≠ 0 ∧ sign ≠ acc.1 then acc.2 + 1 else acc.2
          (if sign ≠ 0 then sign else acc.1, fl))
        ((0, 0) : ℤ × ℕ)).2
    let varW := varianceOf window
    let mean_abs := (window.map (fun s => |s|)).sum / (max 1 window.length : ℚ)
    let max_possible := e.max_tf_raw * 4
    let scale := max (35 / 100) (min 1 (max_possible / 45))
    let stab_hi := (15 / 2) * scale
    let mean_abs_mid := 12 * scale
    let mean_abs_low := 7 * scale
    let stab_low := (7 / 2) * scale
    if 4 ≤ flips then true
    else if stab_hi ^ 2 ≤ varW ∧ mean_abs ≤ mean_abs_mid then true
    else if mean_abs ≤ mean_abs_low ∧ stab_low ^ 2 ≤ varW then true
    else false

/-- `ScoreEngine._direction`. -/
def engine_direction (e : ScoreEngine) (score : ℚ) : String :=
  if e.neutral_band ≤ score then "CE"
  else if score ≤ -e.neutral_band then "PE"
  else "NONE"

/-- Readiness of one timeframe (`_ready_timeframes`): SuperTrend has at least
`period` candles and MACD has emitted a value and a histogram. -/
def tf_ready (state : TFIndicators) : Bool :=
  decide (state.supertrend.period ≤ state.supertrend.candles.length) &&
    !(state.macd.last_macd = none) && !(state.macd.last_histogram = none)

/-- `MDSnapshot`. `stability_sq` carries the variance whose square root is
the source's `stability`; `confidence` (a blend that divides the stddev by
10 before clamping, hence irrational in general) and the display-only
3-decimal rounding of the source are not replicated — no claim depends on
them. `ready_base`/`ready_next` are the two members of `ready_timeframes`. -/
structure MDSnapshot where
  score : ℚ
  slope : ℚ
  acceleration : ℚ
  stability_sq : ℚ
  is_choppy : Bool
  direction : String
  tf_score_base : TFScore
  tf_score_next : TFScore
  ready_base : Bool
  ready_next : Bool
  ready : Bool
deriving DecidableEq, Repr

/-- The early-exit snapshot `self._snapshot({}, ready=False)` for a
non-positive close (tf-score fields fall back to the persisted last
scores). -/
def emptySnapshot (e : ScoreEngine) : MDSnapshot :=
  ⟨0, 0, 0, 0, false, "NONE", e.last_score_base, e.last_score_next,
   false, false, false⟩

/-- `ScoreEngine.on_base_candle`: consume one base candle, returning the
updated engine and the snapshot. -/
def on_base_candle (e : ScoreEngine) (candle : Candle) :
    ScoreEngine × MDSnapshot :=
  if candle.close ≤ 0 then (e, emptySnapshot e)
  else
    let resB := compute_tf_score_from_state e e.tfs_base e.base_tf candle
    let e := { e with tfs_base := resB.1, last_score_base := resB.2 }
    let aggU := aggregateNext e candle
    let e := aggU.1
    let nextPick : ScoreEngine × Option TFScore :=
      match aggU.2 with
      | some completed =>
          let resN := compute_tf_score_from_state e e.tfs_next e.next_tf completed
          ({ e with tfs_next := resN.1, last_score_next := resN.2 }, some resN.2)
      | none =>
          -- non-mutating peek on the in-progress partial aggregate: the
          -- updated indicator state is computed on a copy and discarded
          match e.agg_state with
          | some s =>
              if 0 < s.count then
                let peekBar : Candle := ⟨s.high, s.low, s.close⟩
                (e, some (compute_tf_score_from_state e e.tfs_next e.next_tf peekBar).2)
              else (e, none)
          | none => (e, none)
    let e := nextPick.1
    let nextW : ℚ :=
      match nextPick.2 with
      | some sc => sc.weighted_score
      | none => e.last_score_next.weighted_score
    let total_score := resB.2.weighted_score + nextW
    -- EWMA smoothing, alpha fixed at 0.4
    let alpha : ℚ := 2 / 5
    let smoothed :=
      match e.score_ewma with
      | none => total_score
      | some prev => alpha * total_score + (1 - alpha) * prev
    let prev_score := e.score_history.getLast?
    let slope : ℚ := match prev_score with | none => 0 | some p => smoothed - p
    let prev_slope := e.slope_history.getLast?
    let acceleration : ℚ := match prev_slope with | none => 0 | some p => slope - p
    let hist_maxlen := max 60 (e.chop_window * 5)
    let score_history := keepLast hist_maxlen (e.score_history ++ [smoothed])
    let slope_history := keepLast hist_maxlen (e.slope_history ++ [slope])
    let stability_sq :=
      if 5 ≤ score_history.length then varianceOf (keepLast e.chop_window score_history)
      else 0
    let is_choppy := detect_chop e score_history
    let direction := engine_direction e smoothed
    let ready_base := tf_ready e.tfs_base
    let ready_next := tf_ready e.tfs_next
    ({ e with
        score_ewma := some smoothed,
        score_history := score_history,
        slope_history := slope_history },
     ⟨smoothed, slope, acceleration, stability_sq, is_choppy, direction,
      e.last_score_base, e.last_score_next, ready_base, ready_next,
      ready_base && ready_next⟩)

/-! ### Broker reconciler — `broker_reconciler.py` -/

/-- The fields of one Dhan position dict that `reconcile_with_broker` reads
(the `or`-chains of alternate key spellings collapse onto one field each). -/
structure BrokerPos where
  security_id : String
  trading_symbol : String
  net_qty : ℤ
  buy_avg : ℚ
  product_type : String
deriving DecidableEq, Repr

/-- The product types accepted by the open-position filter. -/
def PRODUCT_TYPES : List String := ["INTRADAY", "CNC", "MARGIN", "MTF", ""]

/-- The known index symbols scanned in order. -/
def KNOWN_INDICES : List String :=
  ["NIFTY", "BANKNIFTY", "FINNIFTY", "SENSEX", "MIDCPNIFTY"]

/-- Index inference: first known index that the upper-cased trading symbol
starts with, else `config['selected_index']`. -/
def inferIndexName (sym selected : String) : String :=
  match KNOWN_INDICES.find? (fun idx => sym.toUpper.startsWith idx) with
  | some idx => idx
  | none => selected

/-- Strike parsing: the digits of the symbol minus its final two characters,
keeping the last six, as an integer (0 when no digits). -/
def parseStrike (sym : String) : ℤ :=
  let body := sym.toList.take (sym.length - 2)
  let digits := body.filter Char.isDigit
  if digits = [] then 0
  else ((keepLast 6 digits).foldl (fun n c => n * 10 + ((c.toNat : ℤ) - 48)) 0)

/-- The state `reconcile_with_broker` rebuilds on success:
`bot.current_position` fields plus `bot.entry_price` (`avg_price`) and
`bot_state['current_option_ltp']` (the live quote when positive, else the
average cost). -/
structure RecPos where
  option_type : String
  strike : ℤ
  security_id : String
  index_name : String
  qty : ℤ
  entry_price : ℚ
  current_option_ltp : ℚ
deriving DecidableEq, Repr

/-- `reconcile_with_broker`, as a pure function of the fetched broker
positions, the optional live LTP fetch result, and the configured index.
Returns `none` when the bot stays flat (the Python `return False` paths). -/
def reconcile_with_broker (raw : List BrokerPos) (liveQuote : Option ℚ)
    (selected_index : String) : Option RecPos :=
  let opens := raw.filter
    (fun p => decide (p.net_qty ≠ 0) && decide (p.product_type.toUpper ∈ PRODUCT_TYPES))
  match opens with
  | [] => none
  | p :: _ =>
      -- more than one open position only logs a warning; the first is used
      let security_id := p.security_id
      let sym := p.trading_symbol
      let qty := |p.net_qty|
      let avg := p.buy_avg
      if security_id = "" ∨ qty = 0 then none
      else
        let option_type :=
          if sym.endsWith "CE" then "CE" else if sym.endsWith "PE" then "PE" else ""
        let live : ℚ :=
          match liveQuote with
          | some v => if 0 < v then v else avg
          | none => avg
        some ⟨option_type, parseStrike sym, security_id,
          inferIndexName sym selected_index, qty, avg, live⟩

/-! ### Orchestrator — `trading_bot.py` (`start`, `stop`, `enter_position`,
`close_position`, `squareoff`)

Each public operation is modelled as one atomic step of a transition system;
broker/market outcomes that the code branches on (order placed or not,
fill confirmed or not, paper vs live mode, …) are carried by the event.
`squareoff` delegates to `close_position` (its own guards only produce the
no-op path), so the close events cover it. -/

/-- The `self.current_position` dict (decision-relevant fields). -/
structure Pos where
  option_type : String
  strike : ℤ
  security_id : String
  index_name : String
  qty : ℤ
  exit_order_id : Option String
deriving DecidableEq, Repr

/-- The orchestrator state: state machine, `self.running`, the position and
`self.entry_price`. -/
structure BotS where
  sm : BotStateMachine
  running : Bool
  current_position : Option Pos
  entry_price : ℚ
deriving DecidableEq, Repr

/-- Initial orchestrator state (fresh process: IDLE, not running, flat). -/
def BotS.init : BotS := ⟨BotStateMachine.init, false, none, 0⟩

/-- Data of a successfully resolved entry order (instrument and fill
price); produced by the broker environment. -/
structure EnterData where
  option_type : String
  strike : ℤ
  security_id : String
  index_name : String
  qty : ℤ
  entry_price : ℚ
deriving DecidableEq, Repr

/-- Environment outcome of one `close_position` call. -/
inductive CloseOutcome where
  | paper
  | livePlaceFail
  | liveOpen (oid : String)
  | liveTerminal (oid : String)
  | liveFilled (oid : String)
deriving DecidableEq, Repr

/-- One orchestrator operation together with its environment outcome. -/
inductive Ev where
  | startFail
  | startNormal
  | startReconcile (raw : List BrokerPos) (liveQuote : Option ℚ) (sel : String)
  | enterBlocked
  | enterPaper (d : EnterData)
  | enterLiveOrderFail
  | enterLiveFillFail
  | enterLiveFilled (d : EnterData)
  | closePos (o : CloseOutcome)
  | stopBot
deriving DecidableEq, Repr

/-- One atomic orchestrator step, following the corresponding Python method
line by line (state-machine transitions that the table rejects are silent
no-ops, exactly as in the source). -/
def step (s : BotS) (ev : Ev) : BotS :=
  match ev with
  | .startFail =>
      -- `start()` past the `if self.running` guard, then Dhan init (or paper
      -- replay preparation) fails: `state_machine.start()` already ran,
      -- `self.running` is still False
      if s.running then s
      else { s with sm := (s.sm.transition WARMING_UP).2 }
  | .startNormal =>
      -- no reconciliation (paper mode, or live and flat): seed, `warmed_up()`
      if s.running then s
      else
        let sm1 := (s.sm.transition WARMING_UP).2
        let sm2 := (sm1.transition SCANNING).2
        { s with sm := sm2, running := true }
  | .startReconcile raw liveQuote sel =>
      if s.running then s
      else
        let sm1 := (s.sm.transition WARMING_UP).2
        match reconcile_with_broker raw liveQuote sel with
        | some r =>
            -- open position found: install it, then `warmed_up()`,
            -- `placing_entry()`, `entry_confirmed()`
            let sm2 := (sm1.transition SCANNING).2
            let sm3 := (sm2.transition ENTERING).2
            let sm4 := (sm3.transition IN_POSITION).2
            { sm := sm4,
              running := true,
              current_position := some ⟨r.option_type, r.strike, r.security_id,
                  r.index_name, r.qty, none⟩,
              entry_price := r.entry_price }
        | none =>
            -- flat (or reconciliation failed, non-fatal): `warmed_up()`
            let sm2 := (sm1.transition SCANNING).2
            { s with sm := sm2, running := true }
  | .enterBlocked =>
      -- any of the pre-order guards fired (trading paused, market closed,
      -- cooldown, missing expiry/security/LTP, risk sizing): plain return
      s
  | .enterPaper d =>
      if d.security_id = "" then s
      else if d.entry_price ≤ 0 then s
      else
        -- position saved, then `placing_entry()` and `entry_confirmed()`
        let sm1 := (s.sm.transition ENTERING).2
        let sm2 := (sm1.transition IN_POSITION).2
        { s with
          sm := sm2,
          current_position := some ⟨d.option_type, d.strike, d.security_id,
              d.index_name, d.qty, none⟩,
          entry_price := d.entry_price }
  | .enterLiveOrderFail =>
      -- order placement failed: `entry_failed()` (a SCANNING target)
      { s with sm := (s.sm.transition SCANNING).2 }
  | .enterLiveFillFail =>
      -- order placed (`placing_entry()`), then fill verification failed:
      -- plain return, no position installed
      { s with sm := (s.sm.transition ENTERING).2 }
  | .enterLiveFilled d =>
      if d.security_id = "" then s
      else
        let sm1 := (s.sm.transition ENTERING).2
        if d.entry_price ≤ 0 then { s with sm := sm1 }
        else
          let sm2 := (sm1.transition IN_POSITION).2
          { s with
            sm := sm2,
            current_position := some ⟨d.option_type, d.strike, d.security_id,
                d.index_name, d.qty, none⟩,
            entry_price := d.entry_price }
  | .closePos o =>
      match s.current_position with
      | none => s
      | some p =>
          if p.security_id = "" then
            -- `elif not security_id`: close without a broker order, then
            -- `exit_confirmed()` and `cooldown_done()`
            let sm1 := (s.sm.transition COOLDOWN).2
            let sm2 := (sm1.transition SCANNING).2
            { s with sm := sm2, current_position := none, entry_price := 0 }
          else
            match o with
            | .paper =>
                let sm1 := (s.sm.transition EXITING).2
                let sm2 := (sm1.transition COOLDOWN).2
                let sm3 := (sm2.transition SCANNING).2
                { s with sm := sm3, current_position := none, entry_price := 0 }
            | .livePlaceFail =>
                -- EXIT order placement failed: plain `return False`
                s
            | .liveOpen oid =>
                let smp :=
                  if p.exit_order_id = none then
                    ((s.sm.transition EXITING).2,
                     { p with exit_order_id := some oid })
                  else (s.sm, p)
                { s with sm := smp.1, current_position := some smp.2 }
            | .liveTerminal oid =>
                let smp :=
                  if p.exit_order_id = none then
                    ((s.sm.transition EXITING).2,
                     { p with exit_order_id := some oid })
                  else (s.sm, p)
                -- REJECTED/CANCELLED/ERROR: drop the exit order id and
                -- `exit_failed()`
                let sm2 := (smp.1.transition IN_POSITION).2
                { s with
                  sm := sm2,
                  current_position := some { smp.2 with exit_order_id := none } }
            | .liveFilled oid =>
                let smp :=
                  if p.exit_order_id = none then
                    ((s.sm.transition EXITING).2,
                     { p with exit_order_id := some oid })
                  else (s.sm, p)
                let sm2 := (smp.1.transition COOLDOWN).2
                let sm3 := (sm2.transition SCANNING).2
                { s with sm := sm3, current_position := none, entry_price := 0 }
  | .stopBot =>
      -- `stop()`: `self.running = False`, `state_machine.stop()`; the
      -- position attribute is NOT cleared
      { s with running := false, sm := (s.sm.transition IDLE).2 }

/-- Run the orchestrator from the fresh-process state. -/
def runBot (evs : List Ev) : BotS := evs.foldl step BotS.init

/-! ## Theorems -/

/-! ### C1 — ERROR reachability in the transition table -/

/-- C1 (counterexample): the claim says a transition to ERROR is accepted in
every phase. It is not: in phase IDLE (`_ALLOWED[IDLE] = {WARMING_UP,
SCANNING}`) the transition to ERROR is rejected. -/
theorem C1_counterexample :
    BotStateMachine.init.phase = BotPhase.IDLE ∧
    (BotStateMachine.init.transition BotPhase.ERROR).1 = false := by decide

/-- C1 (amended): a transition to ERROR is accepted in every phase except
IDLE and ERROR itself, and in phase ERROR the only accepted target is IDLE
(every other target is rejected). -/
theorem C1_error_edges (m : BotStateMachine) :
    (m.phase ≠ BotPhase.IDLE → m.phase ≠ BotPhase.ERROR →
      (m.transition BotPhase.ERROR).1 = true) ∧
    (m.phase = BotPhase.ERROR →
      ∀ t, (m.transition t).1 = true ↔ t = BotPhase.IDLE) := by
  obtain ⟨p, prev⟩ := m
  constructor
  · intro h1 h2
    cases p <;> simp_all [BotStateMachine.transition, allowedTargets]
  · intro hp t
    cases p <;> simp_all [BotStateMachine.transition, allowedTargets] <;>
      cases t <;> simp_all

/-- C1 (witness): the amended theorem at concrete inputs — SCANNING accepts
ERROR, and ERROR accepts IDLE. -/
theorem C1_error_edges_witness :
    ((⟨BotPhase.SCANNING, none⟩ : BotStateMachine).transition BotPhase.ERROR).1 = true ∧
    ((⟨BotPhase.ERROR, none⟩ : BotStateMachine).transition BotPhase.IDLE).1 = true :=
  ⟨(C1_error_edges ⟨BotPhase.SCANNING, none⟩).1 (by decide) (by decide),
   ((C1_error_edges ⟨BotPhase.ERROR, none⟩).2 rfl BotPhase.IDLE).mpr rfl⟩

/-! ### C3 — rejected transitions have no side effect -/

/-- C3: for every machine state and every attempted target not in the
transition table for the current phase, `transition` returns `False` and the
machine is unchanged (phase, and every other field, still equal). -/
theorem C3_rejected_unchanged (m : BotStateMachine) (t : BotPhase)
    (h : t ∉ allowedTargets m.phase) :
    m.transition t = (false, m) := by
  simp [BotStateMachine.transition, h]

/-- C3 (witness): IDLE → ERROR is not in the table; the transition is
rejected and the machine unchanged. -/
theorem C3_rejected_unchanged_witness :
    BotStateMachine.init.transition BotPhase.ERROR = (false, BotStateMachine.init) :=
  C3_rejected_unchanged BotStateMachine.init BotPhase.ERROR (by decide)

/-! ### C5 / C6 — trailing-stop lemmas -/

/-- The locked-in profit of `check_trailing_sl` at highest-seen profit `h`
(the source's `locked_profit`, including the `max(0.0, ...)` clamp). -/
def lockedProfit (cfg : TrailCfg) (h : ℚ) : ℚ :=
  max 0 ((cfg.trail_start_profit - cfg.trail_step) +
    (⌊(h - cfg.trail_start_profit) / cfg.trail_step⌋ : ℚ) * cfg.trail_step)

theorem lockedProfit_nonneg (cfg : TrailCfg) (h : ℚ) : 0 ≤ lockedProfit cfg h :=
  le_max_left 0 _

theorem lockedProfit_mono (cfg : TrailCfg) (hst : 0 < cfg.trail_step)
    {a b : ℚ} (hab : a ≤ b) : lockedProfit cfg a ≤ lockedProfit cfg b := by
  apply max_le_max le_rfl
  apply add_le_add_left
  apply mul_le_mul_of_nonneg_right _ hst.le
  exact_mod_cast Int.floor_le_floor
    ((div_le_div_iff_of_pos_right hst).mpr (sub_le_sub_right hab _))

/-- Invariant of the trailing state under repeated `check_trailing_sl` calls:
once the highest-seen profit has reached `trail_start_profit` the stop equals
the entry price plus the (clamped) locked profit; before that it is the
seeded initial stop (when configured and at least one call was made), else
absent. -/
def TInv (cfg : TrailCfg) (entry : ℚ) (started : Bool) (s : TrailSt) : Prop :=
  if cfg.trail_start_profit ≤ s.highest_profit then
    s.trailing_sl = some (entry + lockedProfit cfg s.highest_profit)
  else if started = true ∧ 0 < cfg.initial_stoploss then
    s.trailing_sl = some (entry - cfg.initial_stoploss)
  else s.trailing_sl = none

theorem TInv_init (cfg : TrailCfg) (entry : ℚ) (hts : 0 < cfg.trail_start_profit) :
    TInv cfg entry false trailInit := by
  simp [TInv, trailInit, not_le.mpr hts]

/-- Explicit description of one monitor call (with a position held and both
trail parameters positive), in terms of `lockedProfit`. -/
theorem check_trailing_sl_eq (cfg : TrailCfg) (entry : ℚ) (s : TrailSt) (ltp : ℚ)
    (hts : 0 < cfg.trail_start_profit) (hst : 0 < cfg.trail_step) :
    check_trailing_sl cfg true entry s ltp =
      (let h2 := max s.highest_profit (ltp - entry)
       let sl0 := if 0 < cfg.initial_stoploss ∧ s.trailing_sl = none
                  then some (entry - cfg.initial_stoploss) else s.trailing_sl
       if h2 < cfg.trail_start_profit then ⟨sl0, h2⟩
       else
         let new_sl := entry + lockedProfit cfg h2
         match sl0 with
         | none => ⟨some new_sl, h2⟩
         | some old => if old < new_sl then ⟨some new_sl, h2⟩ else ⟨sl0, h2⟩) := by
  unfold check_trailing_sl lockedProfit
  simp only [Bool.not_true, Bool.false_eq_true, if_false]
  rw [if_neg (by push_neg; exact ⟨hts, hst⟩)]

theorem TInv_step (cfg : TrailCfg) (entry : ℚ) (hts : 0 < cfg.trail_start_profit)
    (hst : 0 < cfg.trail_step) (b : Bool) (s : TrailSt) (ltp : ℚ)
    (hI : TInv cfg entry b s) :
    TInv cfg entry true (check_trailing_sl cfg true entry s ltp) := by
  rw [check_trailing_sl_eq cfg entry s ltp hts hst]
  simp only []
  set h2 := max s.highest_profit (ltp - entry) with hh2
  have hmono : s.highest_profit ≤ h2 := le_max_left _ _
  unfold TInv at hI
  by_cases hact : h2 < cfg.trail_start_profit
  · -- still below the activation threshold
    have hold : ¬ cfg.trail_start_profit ≤ s.highest_profit :=
      not_le.mpr (lt_of_le_of_lt hmono hact)
    rw [if_neg hold] at hI
    rw [if_pos hact]
    unfold TInv
    simp only [not_le.mpr hact, if_false]
    by_cases hisl : 0 < cfg.initial_stoploss
    · by_cases hb : b = true ∧ 0 < cfg.initial_stoploss
      · rw [if_pos hb] at hI
        simp [hI, hisl]
      · rw [if_neg hb] at hI
        simp [hI, hisl]
    · rw [if_neg (by simp [hisl])] at hI
      simp [hI, hisl]
  · -- activated: the stop is the clamped formula at the new highest
    rw [if_neg hact]
    push_neg at hact
    by_cases hold : cfg.trail_start_profit ≤ s.highest_profit
    · rw [if_pos hold] at hI
      have hsl0 : (if 0 < cfg.initial_stoploss ∧ s.trailing_sl = none then
          some (entry - cfg.initial_stoploss) else s.trailing_sl) = s.trailing_sl := by
        rw [if_neg]; rintro ⟨-, hnone⟩; rw [hI] at hnone; exact Option.noConfusion hnone
      rw [hsl0, hI]
      have hlm := lockedProfit_mono cfg hst hmono
      by_cases hlt : entry + lockedProfit cfg s.highest_profit <
          entry + lockedProfit cfg h2
      · simp only [if_pos hlt]
        unfold TInv
        simp [hact]
      · simp only [if_neg hlt]
        have heq : lockedProfit cfg s.highest_profit = lockedProfit cfg h2 :=
          le_antisymm hlm (by linarith [not_lt.mp hlt])
        unfold TInv
        simp [hact, heq]
    · rw [if_neg hold] at hI
      have hseedlt : ∀ isl : ℚ, 0 < isl →
          entry - isl < entry + lockedProfit cfg h2 := by
        intro isl hisl
        have := lockedProfit_nonneg cfg h2
        linarith
      by_cases hb : b = true ∧ 0 < cfg.initial_stoploss
      · rw [if_pos hb] at hI
        have hsl0 : (if 0 < cfg.initial_stoploss ∧ s.trailing_sl = none then
            some (entry - cfg.initial_stoploss) else s.trailing_sl) = s.trailing_sl := by
          rw [if_neg]; rintro ⟨-, hnone⟩; rw [hI] at hnone; exact Option.noConfusion hnone
        rw [hsl0, hI]
        simp only [if_pos (hseedlt _ hb.2)]
        unfold TInv
        simp [hact]
      · rw [if_neg hb] at hI
        rw [hI]
        by_cases hisl : 0 < cfg.initial_stoploss
        · rw [if_pos ⟨hisl, rfl⟩]
          simp only [if_pos (hseedlt _ hisl)]
          unfold TInv
          simp [hact]
        · rw [if_neg (by simp [hisl])]
          unfold TInv
          simp [hact]

theorem TInv_run (cfg : TrailCfg) (entry : ℚ) (hts : 0 < cfg.trail_start_profit)
    (hst : 0 < cfg.trail_step) :
    ∀ (l : List ℚ) (s : TrailSt), TInv cfg entry true s →
      TInv cfg entry true (trailRun cfg entry s l) := by
  intro l
  induction l with
  | nil => intro s hI; exact hI
  | cons x xs ih =>
      intro s hI
      exact ih _ (TInv_step cfg entry hts hst true s x hI)

/-! ### C5 — trailing-stop values -/

/-- C5 (counterexample): the claim's general formula omits the source's
`max(0.0, ...)` clamp on the locked profit. With trail_start=5, trail_step=10,
entry 100 and a single price giving profit 6, the highest-seen profit (6) has
exceeded trail_start with step_count 0; the claim's formula gives
100 + (5 − 10) + 0·10 = 95, but the code clamps the locked profit at 0 and
sets the stop to 100. -/
theorem C5_counterexample :
    (trailRun ⟨5, 10, 0⟩ 100 trailInit [106]).highest_profit = 6 ∧
    (⌊((6 : ℚ) - 5) / 10⌋ : ℚ) = 0 ∧
    (100 : ℚ) + ((5 - 10) + 0 * 10) = 95 ∧
    (trailRun ⟨5, 10, 0⟩ 100 trailInit [106]).trailing_sl ≠ some 95 ∧
    (trailRun ⟨5, 10, 0⟩ 100 trailInit [106]).trailing_sl = some 100 := by
  with_unfolding_all decide

set_option maxRecDepth 8000 in
/-- C5 (amended): the scenario holds as stated — entry 100, trail_start=10,
trail_step=5, no initial stop-loss, profit sequence [0,3,6,11,16,20] gives
trailing stops [absent, absent, absent, 105, 110, 115]; and in general, once
the highest-seen profit has reached trail_start, the stop equals entry plus
`max(0, (trail_start − trail_step) + step_count × trail_step)` — the claim's
formula with the source's clamp at zero locked profit. -/
theorem C5_trailing_values :
    trailTrace ⟨10, 5, 0⟩ 100 [100, 103, 106, 111, 116, 120] =
      [none, none, none, some 105, some 110, some 115] ∧
    ∀ (cfg : TrailCfg) (entry : ℚ) (ltps : List ℚ),
      0 < cfg.trail_start_profit → 0 < cfg.trail_step →
      cfg.trail_start_profit ≤ (trailRun cfg entry trailInit ltps).highest_profit →
      (trailRun cfg entry trailInit ltps).trailing_sl =
        some (entry + lockedProfit cfg (trailRun cfg entry trailInit ltps).highest_profit) := by
  constructor
  · with_unfolding_all decide
  · intro cfg entry ltps hts hst hhigh
    have hI : TInv cfg entry true (trailRun cfg entry trailInit ltps) := by
      cases ltps with
      | nil =>
          simp only [trailRun, List.foldl_nil] at hhigh
          exact absurd hhigh (by simp [trailInit, not_le, hts])
      | cons x xs =>
          have h1 : TInv cfg entry true (check_trailing_sl cfg true entry trailInit x) :=
            TInv_step cfg entry hts hst false trailInit x (TInv_init cfg entry hts)
          have h2 := TInv_run cfg entry hts hst xs _ h1
          simpa [trailRun, List.foldl_cons] using h2
    unfold TInv at hI
    rwa [if_pos hhigh] at hI

/-- C5 (witness): the amended general formula applied to the scenario run —
highest profit 20, step_count 2, stop 115. -/
theorem C5_trailing_values_witness :
    (trailRun ⟨10, 5, 0⟩ 100 trailInit [100, 103, 106, 111, 116, 120]).trailing_sl =
      some (100 + lockedProfit ⟨10, 5, 0⟩
        (trailRun ⟨10, 5, 0⟩ 100 trailInit [100, 103, 106, 111, 116, 120]).highest_profit) :=
  C5_trailing_values.2 ⟨10, 5, 0⟩ 100 [100, 103, 106, 111, 116, 120]
    (by norm_num) (by norm_num) (by with_unfolding_all decide)

/-! ### C6 — trailing-stop monotonicity -/

/-- One monitor call never lowers the trailing stop (any configuration, any
state): the stop is only seeded when absent and only replaced by a strictly
larger value. -/
theorem check_trailing_sl_mono (cfg : TrailCfg) (hp : Bool) (entry : ℚ)
    (s : TrailSt) (ltp : ℚ) :
    ∀ v, s.trailing_sl = some v →
      ∃ w, (check_trailing_sl cfg hp entry s ltp).trailing_sl = some w ∧ v ≤ w := by
  intro v hv
  unfold check_trailing_sl
  cases hp with
  | false => exact ⟨v, by simpa using hv, le_rfl⟩
  | true =>
    simp only [Bool.not_true, Bool.false_eq_true, if_false]
    by_cases hcfg : cfg.trail_start_profit ≤ 0 ∨ cfg.trail_step ≤ 0
    · rw [if_pos hcfg]; exact ⟨v, hv, le_rfl⟩
    · rw [if_neg hcfg]
      have hsl0 : (if 0 < cfg.initial_stoploss ∧ s.trailing_sl = none then
          some (entry - cfg.initial_stoploss) else s.trailing_sl) = some v := by
        rw [if_neg, hv]; rintro ⟨-, hn⟩; rw [hv] at hn; exact Option.noConfusion hn
      by_cases hbelow : max s.highest_profit (ltp - entry) < cfg.trail_start_profit
      · rw [if_pos hbelow]
        refine ⟨v, ?_, le_rfl⟩
        show (if 0 < cfg.initial_stoploss ∧ s.trailing_sl = none then
            some (entry - cfg.initial_stoploss) else s.trailing_sl) = some v
        exact hsl0
      · rw [if_neg hbelow]
        rw [hsl0]
        dsimp only
        by_cases hlt : v < entry + max 0 ((cfg.trail_start_profit - cfg.trail_step) +
            (⌊(max s.highest_profit (ltp - entry) - cfg.trail_start_profit) /
              cfg.trail_step⌋ : ℚ) * cfg.trail_step)
        · rw [if_pos hlt]
          exact ⟨_, rfl, hlt.le⟩
        · rw [if_neg hlt]
          exact ⟨v, rfl, le_rfl⟩

/-- C6: for any option-price sequence fed to the trailing monitor of an open
long position (trail_start > 0, trail_step > 0), the trailing stop is
non-decreasing across calls: whenever it is set after `i` calls, after any
`j ≥ i` calls it is still set and at least as large. -/
theorem C6_trailing_monotone (cfg : TrailCfg) (entry : ℚ) (ltps : List ℚ)
    (hts : 0 < cfg.trail_start_profit) (hst : 0 < cfg.trail_step)
    (i j : ℕ) (hij : i ≤ j) :
    ∀ v, (trailRun cfg entry trailInit (ltps.take i)).trailing_sl = some v →
      ∃ w, (trailRun cfg entry trailInit (ltps.take j)).trailing_sl = some w ∧
        v ≤ w := by
  induction j, hij using Nat.le_induction with
  | base => intro v hv; exact ⟨v, hv, le_rfl⟩
  | succ n hn ih =>
      intro v hv
      obtain ⟨w, hw, hvw⟩ := ih v hv
      have hnext : ∀ u, (trailRun cfg entry trailInit (ltps.take n)).trailing_sl = some u →
          ∃ z, (trailRun cfg entry trailInit (ltps.take (n + 1))).trailing_sl = some z ∧
            u ≤ z := by
        intro u hu
        rw [List.take_succ]
        cases hg : ltps[n]? with
        | none =>
            refine ⟨u, ?_, le_rfl⟩
            simpa [Option.toList] using hu
        | some x =>
            simp only [trailRun, Option.toList_some, List.foldl_append,
              List.foldl_cons, List.foldl_nil]
            exact check_trailing_sl_mono cfg true entry _ x u
              (by simpa [trailRun] using hu)
      obtain ⟨z, hz, hwz⟩ := hnext w hw
      exact ⟨z, hz, hvw.trans hwz⟩

/-- C6 (witness): on the scenario sequence, the stop set after 4 calls (105)
is still set and no smaller after all 6 calls. -/
theorem C6_trailing_monotone_witness :
    ∃ w, (trailRun ⟨10, 5, 0⟩ 100 trailInit
        ([100, 103, 106, 111, 116, 120].take 6)).trailing_sl = some w ∧
      (105 : ℚ) ≤ w :=
  C6_trailing_monotone ⟨10, 5, 0⟩ 100 [100, 103, 106, 111, 116, 120]
    (by norm_num) (by norm_num) 4 6 (by norm_num) 105 (by with_unfolding_all decide)

/-! ### C4 — fill-confirmation poll loop -/

/-- C4 (counterexample): the claim enumerates the possible result statuses as
TRADED / PART_TRADED / REJECTED / CANCELLED‑or‑EXPIRED / TIMEOUT, but the
source's cancel class also contains CANCELPENDING and returns the raw status:
observing CANCELPENDING yields a result whose status is outside the claim's
enumeration. -/
theorem C4_counterexample :
    (verify_order_filled 65 61 [.seen "CANCELPENDING" 0 0]).status =
      "CANCELPENDING" ∧
    "CANCELPENDING" ∉
      (["TRADED", "PART_TRADED", "REJECTED", "CANCELLED", "EXPIRED", "TIMEOUT"] :
        List String) := by
  with_unfolding_all decide

/-- C4 (amended): for every expected quantity, iteration budget (the 30s
timeout bounds the 0.5s-sleep poll loop to finitely many iterations) and
observation sequence, the loop returns exactly one result whose status is one
of TRADED, PART_TRADED, REJECTED, CANCELLED, EXPIRED, CANCELPENDING, TIMEOUT;
TIMEOUT (and REJECTED / the cancel class) come with filled=false, PART_TRADED
is accepted only once the observed filled quantity reaches the expected
quantity, and an unrecognized status is treated as still-open: the loop
continues exactly as for an open order. -/
theorem C4_fill_confirmation :
    (∀ (q : ℤ) (fuel : Nat) (obs : List PollObs),
      (verify_order_filled q fuel obs).status ∈
        ["TRADED", "PART_TRADED", "REJECTED", "CANCELLED", "EXPIRED",
         "CANCELPENDING", "TIMEOUT"] ∧
      ((verify_order_filled q fuel obs).status = "TIMEOUT" →
        (verify_order_filled q fuel obs).filled = false) ∧
      ((verify_order_filled q fuel obs).status = "PART_TRADED" →
        (verify_order_filled q fuel obs).filled = true ∧
        q ≤ (verify_order_filled q fuel obs).filled_qty) ∧
      ((verify_order_filled q fuel obs).status = "TRADED" →
        (verify_order_filled q fuel obs).filled = true) ∧
      ((verify_order_filled q fuel obs).status ∈
          ("REJECTED" :: CANCEL_STATUSES) →
        (verify_order_filled q fuel obs).filled = false)) ∧
    (∀ (q : ℤ) (fuel : Nat) (st : String) (fq : ℤ) (ap : ℚ)
        (rest : List PollObs),
      st ∉ FILLED_STATUSES → st ∉ PARTIAL_STATUSES → st ∉ OPEN_STATUSES →
      st ∉ REJECTED_STATUSES → st ∉ CANCEL_STATUSES →
      verify_order_filled q (fuel + 1) (.seen st fq ap :: rest) =
        verify_order_filled q fuel rest) := by
  constructor
  · intro q fuel
    induction fuel with
    | zero =>
        intro obs
        exact ⟨by simp [verify_order_filled, timeoutResult],
          fun _ => rfl, fun h => absurd h (by simp [verify_order_filled, timeoutResult]),
          fun h => absurd h (by simp [verify_order_filled, timeoutResult]),
          fun _ => rfl⟩
    | succ n ih =>
        intro obs
        cases obs with
        | nil => simpa only [verify_order_filled] using ih []
        | cons o rest =>
            cases o with
            | notVisible => simpa only [verify_order_filled] using ih rest
            | pollError => simpa only [verify_order_filled] using ih rest
            | seen st fq ap =>
                simp only [verify_order_filled]
                by_cases h1 : st ∈ FILLED_STATUSES
                · rw [if_pos h1]
                  exact ⟨by simp, fun h => absurd h (by simp),
                    fun h => absurd h (by simp), fun _ => rfl,
                    fun h => absurd h (by simp [CANCEL_STATUSES])⟩
                · rw [if_neg h1]
                  by_cases h2 : st ∈ PARTIAL_STATUSES
                  · rw [if_pos h2]
                    by_cases hq : q ≤ fq
                    · rw [if_pos hq]
                      exact ⟨by simp, fun h => absurd h (by simp),
                        fun _ => ⟨rfl, hq⟩, fun h => absurd h (by simp),
                        fun h => absurd h (by simp [CANCEL_STATUSES])⟩
                    · rw [if_neg hq]
                      exact ih rest
                  · rw [if_neg h2]
                    by_cases h3 : st ∈ OPEN_STATUSES
                    · rw [if_pos h3]
                      exact ih rest
                    · rw [if_neg h3]
                      by_cases h4 : st ∈ REJECTED_STATUSES
                      · rw [if_pos h4]
                        exact ⟨by simp, fun _ => rfl,
                          fun h => absurd h (by simp),
                          fun h => absurd h (by simp), fun _ => rfl⟩
                      · rw [if_neg h4]
                        by_cases h5 : st ∈ CANCEL_STATUSES
                        · rw [if_pos h5]
                          simp only [CANCEL_STATUSES, List.mem_cons,
                            List.not_mem_nil, or_false] at h5
                          rcases h5 with h5 | h5 | h5 <;> subst h5 <;>
                            exact ⟨by simp, fun _ => rfl,
                              fun h => absurd h (by simp),
                              fun h => absurd h (by simp), fun _ => rfl⟩
                        · rw [if_neg h5]
                          exact ih rest
  · intro q fuel st fq ap rest h1 h2 h3 h4 h5
    simp only [verify_order_filled]
    rw [if_neg h1, if_neg h2, if_neg h3, if_neg h4, if_neg h5]

/-- C4 (witness): the amended classification at a concrete input — the
scenario sequence [OPEN, OPEN, TRADED] with full quantity. -/
theorem C4_fill_confirmation_witness :
    (verify_order_filled 75 61
        [.seen "OPEN" 0 0, .seen "OPEN" 0 0, .seen "TRADED" 75 100]).status ∈
      ["TRADED", "PART_TRADED", "REJECTED", "CANCELLED", "EXPIRED",
       "CANCELPENDING", "TIMEOUT"] ∧
    verify_order_filled 75 3 [.seen "WEIRD_STATUS" 0 0] =
      verify_order_filled 75 2 [] :=
  ⟨(C4_fill_confirmation.1 75 61
      [.seen "OPEN" 0 0, .seen "OPEN" 0 0, .seen "TRADED" 75 100]).1,
   C4_fill_confirmation.2 75 2 "WEIRD_STATUS" 0 0 []
     (by decide) (by decide) (by decide) (by decide) (by decide)⟩

/-! ### C9 — CE reversal exit under tuned thresholds -/

/-- C9: under the tuned thresholds (legacy=false), a CE position's exit
decision is `should_exit=true` with reason "MDS Reversal (slow confirm)"
exactly when score ≤ −12 and slow_mom ≤ −1.5; in particular score=−13,
slow_mom=−2 produces that exit. -/
theorem C9_ce_reversal_exit :
    (∀ score slope slow_mom : ℚ,
      decide_exit_mds false "CE" score slope slow_mom =
        ⟨true, "MDS Reversal (slow confirm)"⟩ ↔
        (score ≤ -12 ∧ slow_mom ≤ -(3/2))) ∧
    decide_exit_mds false "CE" (-13) 0 (-2) =
      ⟨true, "MDS Reversal (slow confirm)"⟩ := by
  constructor
  · intro score slope slow_mom
    constructor
    · intro h
      unfold decide_exit_mds at h
      rw [if_pos rfl, if_neg (by simp)] at h
      by_cases h1 : score ≤ -12
      · rw [if_pos h1] at h
        by_cases h2 : slow_mom ≤ -(3 / 2)
        · exact ⟨h1, h2⟩
        · rw [if_neg h2] at h
          exact absurd h (by simp)
      · rw [if_neg h1] at h
        split_ifs at h <;> simp_all
    · rintro ⟨h1, h2⟩
      unfold decide_exit_mds
      rw [if_pos rfl, if_neg (by simp), if_pos h1, if_pos h2]
  · with_unfolding_all decide

/-- C9 (witness): the characterization applied at the scenario input. -/
theorem C9_ce_reversal_exit_witness :
    decide_exit_mds false "CE" (-13) 0 (-2) =
      ⟨true, "MDS Reversal (slow confirm)"⟩ :=
  (C9_ce_reversal_exit.1 (-13) 0 (-2)).mpr ⟨by norm_num, by norm_num⟩

/-! ### C7 — entry gating: confirmation counter and immediate override -/

/-- C7: with the gates in place (engine ready, not choppy, direction not
NONE, |score| and |slope| at their configured floors), entry fires only when
the runner-held confirmation counter has reached the threshold — except that
the immediate-entry override (last three recorded scores strictly rising for
CE, strictly falling for PE) fires regardless of the counter. Concretely:
(1) a fired entry implies the gates and (override or counter ≥ threshold);
(2) when the gates hold, the override condition forces a fired entry;
(3) under the tuned thresholds (legacy=false), gates plus a counter at the
threshold force a fired entry. -/
theorem C7_entry_gating (legacy : Bool) (st : RunnerState)
    (ready is_choppy : Bool) (direction : String) (score slope : ℚ)
    (confirm_needed : ℤ) :
    ((runner_decide_entry legacy st ready is_choppy direction score slope
        confirm_needed).2.should_enter = true →
      (ready = true ∧ is_choppy = false ∧ direction ≠ "NONE" ∧
       (if legacy then (10 : ℚ) else 12) ≤ |score| ∧
       (if legacy then (1 : ℚ) else 3 / 2) ≤ |slope| ∧
       ((risingOk (keepLast 5 (st.recent_scores ++ [score])) = true ∧
           direction = "CE") ∨
        (fallingOk (keepLast 5 (st.recent_scores ++ [score])) = true ∧
           direction = "PE") ∨
        confirm_needed ≤ (runner_decide_entry legacy st ready is_choppy
          direction score slope confirm_needed).1.confirm_count))) ∧
    (ready = true → is_choppy = false → direction ≠ "NONE" →
      (if legacy then (10 : ℚ) else 12) ≤ |score| →
      (if legacy then (1 : ℚ) else 3 / 2) ≤ |slope| →
      ((risingOk (keepLast 5 (st.recent_scores ++ [score])) = true ∧
          direction = "CE") ∨
       (fallingOk (keepLast 5 (st.recent_scores ++ [score])) = true ∧
          direction = "PE")) →
      (runner_decide_entry legacy st ready is_choppy direction score slope
        confirm_needed).2.should_enter = true) ∧
    (legacy = false → ready = true → is_choppy = false → direction ≠ "NONE" →
      (12 : ℚ) ≤ |score| → (3 / 2 : ℚ) ≤ |slope| →
      confirm_needed ≤ (runner_decide_entry legacy st ready is_choppy
        direction score slope confirm_needed).1.confirm_count →
      (runner_decide_entry legacy st ready is_choppy direction score slope
        confirm_needed).2.should_enter = true) := by
  cases ready with
  | false =>
      refine ⟨fun h => absurd h (by simp [runner_decide_entry]), ?_, ?_⟩
      · intro h; exact absurd h (by simp)
      · intro _ h; exact absurd h (by simp)
  | true =>
  cases is_choppy with
  | true =>
      refine ⟨fun h => absurd h (by simp [runner_decide_entry]), ?_, ?_⟩
      · intro _ h; exact absurd h (by simp)
      · intro _ _ h; exact absurd h (by simp)
  | false =>
  by_cases hdir : direction = "NONE"
  · subst hdir
    refine ⟨fun h => absurd h (by simp [runner_decide_entry]), ?_, ?_⟩
    · intro _ _ h; exact absurd rfl h
    · intro _ _ _ h; exact absurd rfl h
  · by_cases hsc : |score| < (if legacy then (10 : ℚ) else 12)
    · refine ⟨fun h => ?_, fun _ _ _ hs _ _ => absurd hs (not_le.mpr hsc),
        fun hleg _ _ _ hs _ _ => ?_⟩
      · exact absurd h (by simp [runner_decide_entry, hdir, not_le.mpr, hsc])
      · subst hleg; exact absurd hs (not_le.mpr (by simpa using hsc))
    · by_cases hsl : |slope| < (if legacy then (1 : ℚ) else 3 / 2)
      · refine ⟨fun h => ?_, fun _ _ _ _ hs _ => absurd hs (not_le.mpr hsl),
          fun hleg _ _ _ _ hs _ => ?_⟩
        · exact absurd h
            (by simp [runner_decide_entry, hdir, hsc, hsl])
        · subst hleg; exact absurd hs (not_le.mpr (by simpa using hsl))
      · -- gates pass; analyse the override / counter region
        simp only [runner_decide_entry, Bool.not_true, Bool.false_eq_true,
          if_false, if_neg hdir, if_neg (not_lt.mp hsc).not_lt,
          if_neg (not_lt.mp hsl).not_lt]
        by_cases hr : risingOk (keepLast 5 (st.recent_scores ++ [score])) = true ∧
            direction = "CE"
        · rw [if_pos hr]
          exact ⟨fun _ => ⟨by trivial, by trivial, hdir, not_lt.mp hsc,
              not_lt.mp hsl, Or.inl hr⟩,
            fun _ _ _ _ _ _ => by trivial, fun _ _ _ _ _ _ _ => by trivial⟩
        · rw [if_neg hr]
          by_cases hf : fallingOk (keepLast 5 (st.recent_scores ++ [score])) = true ∧
              direction = "PE"
          · rw [if_pos hf]
            exact ⟨fun _ => ⟨by trivial, by trivial, hdir, not_lt.mp hsc,
                not_lt.mp hsl, Or.inr (Or.inl hf)⟩,
              fun _ _ _ _ _ _ => by trivial, fun _ _ _ _ _ _ _ => by trivial⟩
          · rw [if_neg hf]
            refine ⟨?_, ?_, ?_⟩
            · intro h
              refine ⟨by trivial, by trivial, hdir, not_lt.mp hsc,
                not_lt.mp hsl, Or.inr (Or.inr ?_)⟩
              revert h
              simp only [decide_entry_mds, Bool.not_true, Bool.false_eq_true,
                if_false, if_neg hdir]
              split_ifs <;> simp_all
            · rintro _ _ _ _ _ (hov | hov)
              · exact absurd hov hr
              · exact absurd hov hf
            · intro hleg _ _ _ hs12 hs15 hcc
              revert hcc
              simp only [decide_entry_mds, Bool.not_true, Bool.false_eq_true,
                if_false, if_neg hdir, if_neg (not_lt.mpr hs12),
                if_neg (not_lt.mpr hs15)]
              intro hcc
              rw [if_neg (not_lt.mpr hcc)]

/-- C7 (witness): the override path at a concrete input — recent scores
[1, 2] then 13 are strictly rising, direction CE, gates passing, so entry
fires immediately. -/
theorem C7_entry_gating_witness :
    (runner_decide_entry false ⟨none, 0, [1, 2]⟩ true false "CE" 13 2
      2).2.should_enter = true :=
  (C7_entry_gating false ⟨none, 0, [1, 2]⟩ true false "CE" 13 2 2).2.1
    rfl rfl (by simp) (by with_unfolding_all decide)
    (by with_unfolding_all decide)
    (Or.inl ⟨by with_unfolding_all decide, rfl⟩)

/-! ### C8 — the higher-timeframe peek does not mutate persistent state -/

theorem aggregateNext_base_update (e : ScoreEngine) (x : TFIndicators)
    (y : TFScore) (c : Candle) :
    aggregateNext { e with tfs_base := x, last_score_base := y } c =
      ({ (aggregateNext e c).1 with tfs_base := x, last_score_base := y },
       (aggregateNext e c).2) := by
  unfold aggregateNext
  dsimp only
  split_ifs <;> rfl

theorem aggregateNext_none_agg (e : ScoreEngine) (c : Candle)
    (h : (aggregateNext e c).2 = none) :
    ∃ s : AggState, (aggregateNext e c).1.agg_state = some s ∧ 0 < s.count := by
  unfold aggregateNext at h ⊢
  dsimp only at h ⊢
  split_ifs at h ⊢ with hcond
  exact ⟨_, rfl, Nat.succ_pos _⟩

theorem compute_base_update (e : ScoreEngine) (x : TFIndicators) (y : TFScore)
    (st : TFIndicators) (tf : Nat) (c : Candle) :
    compute_tf_score_from_state { e with tfs_base := x, last_score_base := y }
      st tf c = compute_tf_score_from_state e st tf c := rfl

theorem compute_aggregateNext (e : ScoreEngine) (c : Candle)
    (st : TFIndicators) (tf : Nat) (c2 : Candle) :
    compute_tf_score_from_state (aggregateNext e c).1 st tf c2 =
      compute_tf_score_from_state e st tf c2 := by
  unfold aggregateNext
  dsimp only
  split_ifs <;> rfl

/-- `_aggregate` only touches the `agg_state` component of the engine. -/
theorem aggregateNext_fst (e : ScoreEngine) (c : Candle) :
    (aggregateNext e c).1 =
      { e with agg_state := (aggregateNext e c).1.agg_state } := by
  unfold aggregateNext; dsimp only; split_ifs <;> rfl

/-- C8: when a base candle does not complete a higher-timeframe candle, the
call leaves the higher timeframe's persistent indicator state (`_tfs[next]`:
SuperTrend and MACD histories, previous values, flip history) and its
persisted last timeframe score (`_last_scores[next]`) unchanged, and the
combined (pre-smoothing) score is the base timeframe's fresh score plus a
non-mutating peek score computed from the in-progress partial aggregate. -/
theorem C8_htf_peek_non_mutating (e : ScoreEngine) (c : Candle)
    (hc : 0 < c.close) (hagg : (aggregateNext e c).2 = none) :
    (on_base_candle e c).1.tfs_next = e.tfs_next ∧
    (on_base_candle e c).1.last_score_next = e.last_score_next ∧
    ∃ s : AggState, (on_base_candle e c).1.agg_state = some s ∧
      (on_base_candle e c).2.score =
        (match e.score_ewma with
         | none =>
             (compute_tf_score_from_state e e.tfs_base e.base_tf c).2.weighted_score +
               (compute_tf_score_from_state e e.tfs_next e.next_tf
                 ⟨s.high, s.low, s.close⟩).2.weighted_score
         | some prev =>
             2 / 5 *
               ((compute_tf_score_from_state e e.tfs_base e.base_tf c).2.weighted_score +
                 (compute_tf_score_from_state e e.tfs_next e.next_tf
                   ⟨s.high, s.low, s.close⟩).2.weighted_score) +
               (1 - 2 / 5) * prev) := by
  obtain ⟨s1, hs1, hcount⟩ := aggregateNext_none_agg e c hagg
  unfold on_base_candle
  rw [if_neg (not_le.mpr hc)]
  dsimp only
  rw [aggregateNext_base_update, aggregateNext_fst e c, hs1, hagg]
  dsimp only
  rw [if_pos hcount]
  exact ⟨rfl, rfl, s1, rfl, by cases e.score_ewma <;> rfl⟩

/-- A small concrete engine (base timeframe 5s, SuperTrend period 2,
MACD 2/3/2) and a first base candle, which cannot complete a 15s candle. -/
def sampleEngine : ScoreEngine := ScoreEngine.init 2 3 2 3 2 5 1 (1 / 2) (1 / 2)

def sampleCandle : Candle := ⟨10, 9, 19 / 2⟩

/-- C8 (witness): the peek theorem at the concrete engine and candle. -/
theorem C8_htf_peek_non_mutating_witness :
    (on_base_candle sampleEngine sampleCandle).1.tfs_next = sampleEngine.tfs_next ∧
    (on_base_candle sampleEngine sampleCandle).1.last_score_next =
      sampleEngine.last_score_next ∧
    ∃ s : AggState,
      (on_base_candle sampleEngine sampleCandle).1.agg_state = some s ∧
      (on_base_candle sampleEngine sampleCandle).2.score =
        (match sampleEngine.score_ewma with
         | none =>
             (compute_tf_score_from_state sampleEngine sampleEngine.tfs_base
               sampleEngine.base_tf sampleCandle).2.weighted_score +
               (compute_tf_score_from_state sampleEngine sampleEngine.tfs_next
                 sampleEngine.next_tf ⟨s.high, s.low, s.close⟩).2.weighted_score
         | some prev =>
             2 / 5 *
               ((compute_tf_score_from_state sampleEngine sampleEngine.tfs_base
                 sampleEngine.base_tf sampleCandle).2.weighted_score +
                 (compute_tf_score_from_state sampleEngine sampleEngine.tfs_next
                   sampleEngine.next_tf ⟨s.high, s.low, s.close⟩).2.weighted_score) +
               (1 - 2 / 5) * prev) :=
  C8_htf_peek_non_mutating sampleEngine sampleCandle
    (by norm_num [sampleCandle]) (by with_unfolding_all decide)

/-! ### C10 — startup reconciliation -/

/-- C10 (counterexample): the claim says the entry price is the broker
average cost "replaced by a live quote when available". The code keeps the
average cost as the entry price and stores the live quote only as the
current option price: with average cost 100 and live quote 120 the
reconciled entry price is 100, not 120. -/
theorem C10_counterexample :
    (reconcile_with_broker
        [⟨"sec1", "NIFTY24JAN23000CE", 65, 100, "INTRADAY"⟩]
        (some 120) "NIFTY").map RecPos.entry_price = some 100 ∧
    (reconcile_with_broker
        [⟨"sec1", "NIFTY24JAN23000CE", 65, 100, "INTRADAY"⟩]
        (some 120) "NIFTY").map RecPos.current_option_ltp = some 120 ∧
    (100 : ℚ) ≠ 120 := by
  with_unfolding_all decide

/-- C10 (amended): given exactly one open broker position with net quantity
65 and a trading symbol ending in "CE", the reconciler installs a Position
with option_side "CE" and quantity 65, sets the entry price to the broker
average cost (a positive live quote is stored as the current option price,
not the entry price), and a bot started from the fresh IDLE state lands in
IN_POSITION within the single `start` call (traversing WARMING_UP, SCANNING
and ENTERING immediately, with no scanning or order placement). -/
theorem C10_reconcile_to_in_position (bp : BrokerPos) (liveQuote : Option ℚ)
    (sel : String) (h65 : bp.net_qty = 65) (hsec : bp.security_id ≠ "")
    (hce : bp.trading_symbol.endsWith "CE" = true)
    (hpt : bp.product_type.toUpper ∈ PRODUCT_TYPES) :
    ∃ r : RecPos,
      reconcile_with_broker [bp] liveQuote sel = some r ∧
      r.option_type = "CE" ∧ r.qty = 65 ∧ r.entry_price = bp.buy_avg ∧
      (∀ v, liveQuote = some v → 0 < v → r.current_option_ltp = v) ∧
      (runBot [Ev.startReconcile [bp] liveQuote sel]).sm.phase = IN_POSITION ∧
      (runBot [Ev.startReconcile [bp] liveQuote sel]).current_position =
        some ⟨r.option_type, r.strike, r.security_id, r.index_name, r.qty,
          none⟩ := by
  have hrec : reconcile_with_broker [bp] liveQuote sel =
      some ⟨"CE", parseStrike bp.trading_symbol, bp.security_id,
        inferIndexName bp.trading_symbol sel, |bp.net_qty|, bp.buy_avg,
        (match liveQuote with
         | some v => if 0 < v then v else bp.buy_avg
         | none => bp.buy_avg)⟩ := by
    unfold reconcile_with_broker
    rw [show List.filter (fun p => decide (p.net_qty ≠ 0) &&
        decide (p.product_type.toUpper ∈ PRODUCT_TYPES)) [bp] = [bp] from by
      simp [h65, hpt]]
    dsimp only
    rw [if_neg (by simp [hsec, h65])]
    rw [hce]
    simp
  refine ⟨_, hrec,
    rfl,
    by show |bp.net_qty| = 65; rw [h65]; with_unfolding_all decide,
    rfl, ?_, ?_, ?_⟩
  · rintro v rfl hpos
    dsimp only
    rw [if_pos hpos]
  · simp only [runBot, List.foldl_cons, List.foldl_nil, step]
    rw [if_neg (by simp [BotS.init]), hrec]
    all_goals rfl
  · simp only [runBot, List.foldl_cons, List.foldl_nil, step]
    rw [if_neg (by simp [BotS.init]), hrec]

/-- C10 (witness): the amended theorem at a concrete broker position. -/
theorem C10_reconcile_to_in_position_witness :
    ∃ r : RecPos,
      reconcile_with_broker [⟨"sec1", "NIFTY24JAN23000CE", 65, 100, "INTRADAY"⟩]
        (some 120) "NIFTY" = some r ∧
      r.option_type = "CE" ∧ r.qty = 65 ∧
      r.entry_price = (⟨"sec1", "NIFTY24JAN23000CE", 65, 100, "INTRADAY"⟩ :
        BrokerPos).buy_avg ∧
      (∀ v, (some (120 : ℚ)) = some v → 0 < v → r.current_option_ltp = v) ∧
      (runBot [Ev.startReconcile
          [⟨"sec1", "NIFTY24JAN23000CE", 65, 100, "INTRADAY"⟩]
          (some 120) "NIFTY"]).sm.phase = IN_POSITION ∧
      (runBot [Ev.startReconcile
          [⟨"sec1", "NIFTY24JAN23000CE", 65, 100, "INTRADAY"⟩]
          (some 120) "NIFTY"]).current_position =
        some ⟨r.option_type, r.strike, r.security_id, r.index_name, r.qty,
          none⟩ :=
  C10_reconcile_to_in_position ⟨"sec1", "NIFTY24JAN23000CE", 65, 100, "INTRADAY"⟩
    (some 120) "NIFTY" rfl (by simp) (by with_unfolding_all decide)
    (by with_unfolding_all decide)

/-! ### C2 — Position/Phase coupling over reachable orchestrator states -/

theorem transition_phase_or (m : BotStateMachine) (t : BotPhase) :
    (m.transition t).2.phase = t ∨ (m.transition t).2.phase = m.phase := by
  unfold BotStateMachine.transition
  split_ifs <;> simp

theorem transition_IDLE_phase (m : BotStateMachine) :
    (m.transition IDLE).2.phase = IDLE := by
  obtain ⟨p, pr⟩ := m
  cases p <;> rfl

theorem transition_EXITING_ne_INP (m : BotStateMachine) :
    (m.transition EXITING).2.phase ≠ IN_POSITION := by
  obtain ⟨p, pr⟩ := m
  cases p <;> simp [BotStateMachine.transition, allowedTargets]

/-- The `placing_exit`/`exit_confirmed`/`cooldown_done` chain of
`close_position` lands in SCANNING (or stays in ERROR). -/
theorem exit_chain_phase (m : BotStateMachine) :
    ((((m.transition EXITING).2.transition COOLDOWN).2).transition
      SCANNING).2.phase = SCANNING ∨
    ((((m.transition EXITING).2.transition COOLDOWN).2).transition
      SCANNING).2.phase = ERROR := by
  obtain ⟨p, pr⟩ := m
  cases p <;> first | exact Or.inl rfl | exact Or.inr rfl

/-- The `exit_confirmed`/`cooldown_done` chain (exit order already pending,
so `placing_exit` is skipped) from a phase other than IN_POSITION. -/
theorem cooldown_chain_phase (m : BotStateMachine) (h : m.phase ≠ IN_POSITION) :
    (((m.transition COOLDOWN).2).transition SCANNING).2.phase = SCANNING ∨
    (((m.transition COOLDOWN).2).transition SCANNING).2.phase = ERROR := by
  obtain ⟨p, pr⟩ := m
  cases p <;> first | exact Or.inl rfl | exact Or.inr rfl | exact absurd rfl h

/-- The `start()`/`warmed_up()` chain. -/
theorem start_chain_phase (m : BotStateMachine) :
    (((m.transition WARMING_UP).2).transition SCANNING).2.phase = WARMING_UP ∨
    (((m.transition WARMING_UP).2).transition SCANNING).2.phase = SCANNING ∨
    (((m.transition WARMING_UP).2).transition SCANNING).2.phase = m.phase := by
  obtain ⟨p, pr⟩ := m
  cases p <;> first
    | exact Or.inl rfl
    | exact Or.inr (Or.inl rfl)
    | exact Or.inr (Or.inr rfl)

/-- A reconciled position always carries a nonempty security id (the
`if not security_id or qty == 0: return False` guard). -/
theorem reconcile_security_id_ne (raw : List BrokerPos) (lq : Option ℚ)
    (sel : String) (r : RecPos)
    (h : reconcile_with_broker raw lq sel = some r) : r.security_id ≠ "" := by
  unfold reconcile_with_broker at h
  cases hf : List.filter (fun p => decide (p.net_qty ≠ 0) &&
      decide (p.product_type.toUpper ∈ PRODUCT_TYPES)) raw with
  | nil => rw [hf] at h; exact Option.noConfusion h
  | cons p rest =>
      rw [hf] at h
      dsimp only at h
      by_cases hcond : p.security_id = "" ∨ |p.net_qty| = 0
      · rw [if_pos hcond] at h; exact Option.noConfusion h
      · rw [if_neg hcond] at h
        push_neg at hcond
        obtain rfl := (Option.some.inj h).symm
        exact hcond.1

/-- Inductive invariant of the orchestrator transition system: phases
IN_POSITION and EXITING always carry a Position; every installed Position
has a nonempty security id; and an outstanding exit order id never coexists
with phase IN_POSITION. -/
def OrchInv (s : BotS) : Prop :=
  ((s.sm.phase = IN_POSITION ∨ s.sm.phase = EXITING) →
    s.current_position ≠ none) ∧
  (∀ p : Pos, s.current_position = some p → p.security_id ≠ "") ∧
  (∀ p : Pos, s.current_position = some p → p.exit_order_id ≠ none →
    s.sm.phase ≠ IN_POSITION)

theorem OrchInv_init : OrchInv BotS.init := by
  refine ⟨?_, ?_, ?_⟩ <;> simp [OrchInv, BotS.init, BotStateMachine.init]

theorem phase_or_helper {m sm0 : BotStateMachine} {t : BotPhase}
    (ht1 : t ≠ IN_POSITION) (ht2 : t ≠ EXITING)
    (h : m.phase = t ∨ m.phase = sm0.phase) :
    (m.phase ≠ IN_POSITION ∧ m.phase ≠ EXITING) ∨ m.phase = sm0.phase :=
  h.imp (fun he => ⟨by rw [he]; exact ht1, by rw [he]; exact ht2⟩) id

/-- `OrchInv` is preserved by steps that only change the state machine (to a
phase that is not IN_POSITION/EXITING, or not at all) and the running flag. -/
theorem OrchInv_update_sm (s : BotS) (hI : OrchInv s) (m : BotStateMachine)
    (b : Bool)
    (h : (m.phase ≠ IN_POSITION ∧ m.phase ≠ EXITING) ∨ m.phase = s.sm.phase) :
    OrchInv { sm := m, running := b,
              current_position := s.current_position,
              entry_price := s.entry_price } := by
  obtain ⟨h1, h2, h3⟩ := hI
  refine ⟨?_, ?_, ?_⟩
  · intro hph
    dsimp only at hph ⊢
    rcases h with ⟨hi, hx⟩ | he
    · rcases hph with hh | hh
      · exact absurd hh hi
      · exact absurd hh hx
    · rw [he] at hph
      exact h1 hph
  · intro p hp
    dsimp only at hp
    exact h2 p hp
  · intro p hp ho
    dsimp only at hp ⊢
    rcases h with ⟨hi, _⟩ | he
    · exact hi
    · rw [he]
      exact h3 p hp ho

/-- `OrchInv` holds after installing a fresh position with a nonempty
security id and no outstanding exit order. -/
theorem OrchInv_install (m : BotStateMachine) (b : Bool) (pos : Pos)
    (hsec : pos.security_id ≠ "") (hoid : pos.exit_order_id = none) (ep : ℚ) :
    OrchInv { sm := m, running := b,
              current_position := some pos,
              entry_price := ep } := by
  refine ⟨fun _ => by simp, ?_, ?_⟩
  · intro p hp
    obtain rfl := (Option.some.inj hp).symm
    exact hsec
  · intro p hp ho
    obtain rfl := (Option.some.inj hp).symm
    rw [hoid] at ho
    exact absurd rfl ho

/-- `OrchInv` holds after clearing the position, provided the final phase is
neither IN_POSITION nor EXITING. -/
theorem OrchInv_clear (m : BotStateMachine)
    (h : m.phase ≠ IN_POSITION ∧ m.phase ≠ EXITING) (b : Bool) (ep : ℚ) :
    OrchInv { sm := m, running := b,
              current_position := none,
              entry_price := ep } := by
  refine ⟨?_, by simp, by simp⟩
  intro hph
  dsimp only at hph
  rcases hph with hh | hh
  · exact absurd hh h.1
  · exact absurd hh h.2

theorem OrchInv_step (s : BotS) (ev : Ev) (hI : OrchInv s) :
    OrchInv (step s ev) := by
  obtain ⟨h1, h2, h3⟩ := hI
  cases ev with
  | startFail =>
      simp only [step]
      by_cases hr : s.running = true
      · rw [if_pos hr]; exact ⟨h1, h2, h3⟩
      · rw [if_neg hr]
        exact OrchInv_update_sm s ⟨h1, h2, h3⟩ _ _
          (phase_or_helper (by simp) (by simp)
            (transition_phase_or s.sm WARMING_UP))
  | startNormal =>
      simp only [step]
      by_cases hr : s.running = true
      · rw [if_pos hr]; exact ⟨h1, h2, h3⟩
      · rw [if_neg hr]
        refine OrchInv_update_sm s ⟨h1, h2, h3⟩ _ _ ?_
        rcases start_chain_phase s.sm with he | he | he
        · exact Or.inl ⟨by rw [he]; simp, by rw [he]; simp⟩
        · exact Or.inl ⟨by rw [he]; simp, by rw [he]; simp⟩
        · exact Or.inr he
  | startReconcile raw lq sel =>
      simp only [step]
      by_cases hr : s.running = true
      · rw [if_pos hr]; exact ⟨h1, h2, h3⟩
      · rw [if_neg hr]
        cases hrec : reconcile_with_broker raw lq sel with
        | some r =>
            exact OrchInv_install _ _ _
              (reconcile_security_id_ne raw lq sel r hrec) rfl _
        | none =>
            refine OrchInv_update_sm s ⟨h1, h2, h3⟩ _ _ ?_
            rcases start_chain_phase s.sm with he | he | he
            · exact Or.inl ⟨by rw [he]; simp, by rw [he]; simp⟩
            · exact Or.inl ⟨by rw [he]; simp, by rw [he]; simp⟩
            · exact Or.inr he
  | enterBlocked => exact ⟨h1, h2, h3⟩
  | enterPaper d =>
      simp only [step]
      by_cases hs0 : d.security_id = ""
      · rw [if_pos hs0]; exact ⟨h1, h2, h3⟩
      · rw [if_neg hs0]
        by_cases hp0 : d.entry_price ≤ 0
        · rw [if_pos hp0]; exact ⟨h1, h2, h3⟩
        · rw [if_neg hp0]
          exact OrchInv_install _ _ _ hs0 rfl _
  | enterLiveOrderFail =>
      simp only [step]
      exact OrchInv_update_sm s ⟨h1, h2, h3⟩ _ _
        (phase_or_helper (by simp) (by simp)
          (transition_phase_or s.sm SCANNING))
  | enterLiveFillFail =>
      simp only [step]
      exact OrchInv_update_sm s ⟨h1, h2, h3⟩ _ _
        (phase_or_helper (by simp) (by simp)
          (transition_phase_or s.sm ENTERING))
  | enterLiveFilled d =>
      simp only [step]
      by_cases hs0 : d.security_id = ""
      · rw [if_pos hs0]; exact ⟨h1, h2, h3⟩
      · rw [if_neg hs0]
        by_cases hp0 : d.entry_price ≤ 0
        · rw [if_pos hp0]
          exact OrchInv_update_sm s ⟨h1, h2, h3⟩ _ _
            (phase_or_helper (by simp) (by simp)
              (transition_phase_or s.sm ENTERING))
        · rw [if_neg hp0]
          exact OrchInv_install _ _ _ hs0 rfl _
  | closePos o =>
      simp only [step]
      cases hp : s.current_position with
      | none => exact ⟨h1, h2, h3⟩
      | some p =>
          have hsec := h2 p hp
          dsimp only
          rw [if_neg hsec]
          cases o with
          | paper =>
              refine OrchInv_clear _ ?_ _ _
              rcases exit_chain_phase s.sm with he | he <;>
                exact ⟨by rw [he]; simp, by rw [he]; simp⟩
          | livePlaceFail => exact ⟨h1, h2, h3⟩
          | liveOpen oid =>
              dsimp only
              by_cases ho : p.exit_order_id = none
              · rw [if_pos ho]
                dsimp only
                refine ⟨fun _ => by simp, ?_, ?_⟩
                · intro p2 hp2
                  obtain rfl := (Option.some.inj hp2).symm
                  exact hsec
                · intro p2 hp2 ho2
                  exact transition_EXITING_ne_INP s.sm
              · rw [if_neg ho]
                dsimp only
                refine ⟨fun _ => by simp, ?_, ?_⟩
                · intro p2 hp2
                  obtain rfl := (Option.some.inj hp2).symm
                  exact hsec
                · intro p2 hp2 ho2
                  exact h3 p hp ho
          | liveTerminal oid =>
              dsimp only
              by_cases ho : p.exit_order_id = none
              · rw [if_pos ho]
                dsimp only
                refine ⟨fun _ => by simp, ?_, ?_⟩
                · intro p2 hp2
                  obtain rfl := (Option.some.inj hp2).symm
                  exact hsec
                · intro p2 hp2 ho2
                  obtain rfl := (Option.some.inj hp2).symm
                  exact absurd rfl ho2
              · rw [if_neg ho]
                dsimp only
                refine ⟨fun _ => by simp, ?_, ?_⟩
                · intro p2 hp2
                  obtain rfl := (Option.some.inj hp2).symm
                  exact hsec
                · intro p2 hp2 ho2
                  obtain rfl := (Option.some.inj hp2).symm
                  exact absurd rfl ho2
          | liveFilled oid =>
              dsimp only
              by_cases ho : p.exit_order_id = none
              · rw [if_pos ho]
                dsimp only
                refine OrchInv_clear _ ?_ _ _
                rcases exit_chain_phase s.sm with he | he <;>
                  exact ⟨by rw [he]; simp, by rw [he]; simp⟩
              · rw [if_neg ho]
                dsimp only
                refine OrchInv_clear _ ?_ _ _
                rcases cooldown_chain_phase s.sm (h3 p hp ho) with he | he <;>
                  exact ⟨by rw [he]; simp, by rw [he]; simp⟩
  | stopBot =>
      simp only [step]
      exact OrchInv_update_sm s ⟨h1, h2, h3⟩ _ _
        (Or.inl ⟨by rw [transition_IDLE_phase]; simp,
          by rw [transition_IDLE_phase]; simp⟩)

theorem OrchInv_run (evs : List Ev) : OrchInv (runBot evs) := by
  suffices h : ∀ s, OrchInv s → OrchInv (evs.foldl step s) from
    h BotS.init OrchInv_init
  induction evs with
  | nil => intro s hs; exact hs
  | cons e rest ih => intro s hs; exact ih (step s e) (OrchInv_step s e hs)

/-- C2 (counterexample): the claimed biconditional fails on the code in both
directions. `stop()` moves the phase to IDLE without clearing
`current_position`, so stopping while in a position leaves a non-null
Position with Phase IDLE; and a live entry whose fill verification fails
leaves the phase stuck at ENTERING with no Position — a stable state, not a
transient boundary. -/
theorem C2_counterexample :
    ((runBot [Ev.startReconcile
        [⟨"sec1", "NIFTY24JAN23000CE", 65, 100, "INTRADAY"⟩] none "NIFTY",
        Ev.stopBot]).sm.phase = IDLE ∧
      (runBot [Ev.startReconcile
        [⟨"sec1", "NIFTY24JAN23000CE", 65, 100, "INTRADAY"⟩] none "NIFTY",
        Ev.stopBot]).current_position.isSome = true) ∧
    ((runBot [Ev.startNormal, Ev.enterLiveFillFail]).sm.phase = ENTERING ∧
      (runBot [Ev.startNormal, Ev.enterLiveFillFail]).current_position =
        none) := by
  with_unfolding_all decide

/-- C2 (amended): in every state reachable by the orchestrator's operations
(start, enter_position, close_position, squareoff, stop — each an atomic
step with its environment outcome), if the Phase is IN_POSITION or EXITING
then the Position is non-null. The claimed converse fails: stop leaves the
Position installed while Phase is IDLE, and a failed live entry fill leaves
ENTERING with no Position. -/
theorem C2_phase_implies_position (evs : List Ev) :
    ((runBot evs).sm.phase = IN_POSITION ∨ (runBot evs).sm.phase = EXITING) →
    (runBot evs).current_position ≠ none :=
  (OrchInv_run evs).1

/-- C2 (witness): the amended implication on a concrete trace that lands in
IN_POSITION via startup reconciliation. -/
theorem C2_phase_implies_position_witness :
    (runBot [Ev.startReconcile
      [⟨"sec1", "NIFTY24JAN23000CE", 65, 100, "INTRADAY"⟩] none "NIFTY"]
      ).current_position ≠ none :=
  C2_phase_implies_position
    [Ev.startReconcile [⟨"sec1", "NIFTY24JAN23000CE", 65, 100, "INTRADAY"⟩]
      none "NIFTY"]
    (Or.inl (by with_unfolding_all decide))

end TradingBotV7
